import Mathlib

/-!
Shallow embedding of the cmg-10m-thermal acquisition orchestration layer.

The hardware service (MCC 134 driver) is modelled as an oracle `Hardware`
deciding the outcome of each call; every modelled function additionally
returns the list of hardware calls it issued (`HwEvent` trace), so that
lifecycle properties (opens, closes, configuration writes, reads) can be
stated as properties of the trace.  Doubles are modelled as rationals:
the only operations the code performs on them are exact comparisons
against compiled-in literal constants and pass-through storage.
-/

namespace Thermo

/-- Compiled-in default calibration slope 0.999560
(common.h, DEFAULT_CALIBRATION_SLOPE), written in lowest terms so that
concrete instances evaluate by kernel reduction; the equation with the
decimal literal is proved right below. -/
def DEFAULT_CALIBRATION_SLOPE : ℚ := ⟨24989, 25000, by norm_num, by norm_num⟩

/-- DEFAULT_CALIBRATION_SLOPE is exactly 0.999560. -/
theorem DEFAULT_CALIBRATION_SLOPE_eq :
    DEFAULT_CALIBRATION_SLOPE = 999560 / 1000000 := by
  rw [DEFAULT_CALIBRATION_SLOPE, Rat.mk'_eq_divInt, Rat.divInt_eq_div]
  norm_num

/-- Compiled-in default calibration offset -38.955465
(common.h, DEFAULT_CALIBRATION_OFFSET), written in lowest terms so that
concrete instances evaluate by kernel reduction; the equation with the
decimal literal is proved right below. -/
def DEFAULT_CALIBRATION_OFFSET : ℚ := ⟨-7791093, 200000, by norm_num, by norm_num⟩

/-- DEFAULT_CALIBRATION_OFFSET is exactly -38.955465. -/
theorem DEFAULT_CALIBRATION_OFFSET_eq :
    DEFAULT_CALIBRATION_OFFSET = -38955465 / 1000000 := by
  rw [DEFAULT_CALIBRATION_OFFSET, Rat.mk'_eq_divInt, Rat.divInt_eq_div]
  norm_num

/-- Compiled-in default update interval in seconds (common.h). -/
def DEFAULT_UPDATE_INTERVAL : Int := 1

/-- Maximum number of boards (board_manager.h, MAX_BOARDS). -/
def MAX_BOARDS : Nat := 8

/-- Calibration coefficient pair (hardware.h, CalibrationInfo). -/
structure CalibrationInfo where
  slope : ℚ
  offset : ℚ
deriving DecidableEq, Repr

/-- Logical measurement source (common.h, ThermalSource). -/
structure ThermalSource where
  key : String
  address : Nat
  channel : Nat
  tc_type : String
  cal_coeffs : CalibrationInfo
  update_interval : Int
deriving DecidableEq, Repr

/-- One hardware-service call, as recorded in a run trace.  Warn events model
the warning messages printed to stderr when a non-fatal call fails. -/
inductive HwEvent where
  | openB (addr : Nat)
  | closeB (addr : Nat)
  | setUpdateInterval (addr : Nat) (interval : Int)
  | warnSetInterval (addr : Nat)
  | setCalibrationCoeffs (addr chan : Nat) (slope offset : ℚ)
  | warnSetCal (addr chan : Nat)
  | setTcType (addr chan : Nat) (tc : String)
  | warnSetTc (addr chan : Nat)
  | readTemp (addr chan : Nat)
  | readAdc (addr chan : Nat)
  | readCjc (addr chan : Nat)
deriving DecidableEq, Repr

/-- Hardware-service oracle: decides the outcome of each call.  Reads return
`none` on failure (the C functions return a non-success code). -/
structure Hardware where
  openOk : Nat → Bool
  setIntervalOk : Nat → Bool
  setCalOk : Nat → Nat → Bool
  setTcOk : Nat → Nat → Bool
  readTempVal : Nat → Nat → Option ℚ
  readAdcVal : Nat → Nat → Option ℚ
  readCjcVal : Nat → Nat → Option ℚ

/-- Hardware oracle on which every call succeeds; reads return 0. -/
def hwAllOk : Hardware where
  openOk := fun _ => true
  setIntervalOk := fun _ => true
  setCalOk := fun _ _ => true
  setTcOk := fun _ _ => true
  readTempVal := fun _ _ => some 0
  readAdcVal := fun _ _ => some 0
  readCjcVal := fun _ _ => some 0

/-! Board Manager (thermo-cli/src/board_manager.c). -/

/-- Board manager bookkeeping (board_manager.h, BoardManager): a fixed-size
array of per-address open flags plus the source list it manages. -/
structure BoardManager where
  opened : List Bool
  sources : List ThermalSource
deriving DecidableEq, Repr

/-- Close events for every flagged address, in ascending address order
(the loop of board_manager_close). -/
def closeEvents (opened : List Bool) : List HwEvent :=
  (List.range MAX_BOARDS).filterMap fun i =>
    if opened.getD i false then some (HwEvent.closeB i) else none

/-- board_manager_close: closes every flagged board in ascending address
order, zeroes the flags and drops the source list. -/
def board_manager_close (mgr : BoardManager) : List HwEvent × BoardManager :=
  (closeEvents mgr.opened, ⟨List.replicate MAX_BOARDS false, []⟩)

/-- Trace of a single set-update-interval call: the call itself, plus a
warning event when the hardware reports failure (the C code only prints a
warning and continues). -/
def setIntervalEvents (hw : Hardware) (addr : Nat) (interval : Int) : List HwEvent :=
  HwEvent.setUpdateInterval addr interval ::
    (if hw.setIntervalOk addr then [] else [HwEvent.warnSetInterval addr])

/-- Loop body of board_manager_init over the remaining sources, carrying the
per-address open flags.  Returns the hardware trace, the final flags and the
success flag (THERMO_SUCCESS).  On a failed open the already-opened boards
are closed via board_manager_close and the whole operation fails. -/
def bm_init_go (hw : Hardware) (opened : List Bool) :
    List ThermalSource → List HwEvent × List Bool × Bool
  | [] => ([], opened, true)
  | s :: rest =>
    if opened.getD s.address false then
      bm_init_go hw opened rest
    else if hw.openOk s.address then
      let intervalEvs :=
        if s.update_interval > 0 ∧ s.update_interval ≠ DEFAULT_UPDATE_INTERVAL then
          setIntervalEvents hw s.address s.update_interval
        else []
      let res := bm_init_go hw (opened.set s.address true) rest
      (HwEvent.openB s.address :: (intervalEvs ++ res.1), res.2)
    else
      (HwEvent.openB s.address :: closeEvents opened,
       List.replicate MAX_BOARDS false, false)

/-- board_manager_init: opens every distinct referenced board address once,
applying a non-default update interval right after a successful open; on any
failed open, closes everything already opened and fails (all-or-nothing). -/
def board_manager_init (hw : Hardware) (sources : List ThermalSource) :
    List HwEvent × BoardManager × Bool :=
  let res := bm_init_go hw (List.replicate MAX_BOARDS false) sources
  (res.1, ⟨res.2.1, if res.2.2 then sources else []⟩, res.2.2)

/-- Whether a source's calibration pair differs from the compiled-in default
pair (the condition guarding the calibration write in
board_manager_configure). -/
def calDiffers (s : ThermalSource) : Prop :=
  s.cal_coeffs.slope ≠ DEFAULT_CALIBRATION_SLOPE ∨
  s.cal_coeffs.offset ≠ DEFAULT_CALIBRATION_OFFSET

instance (s : ThermalSource) : Decidable (calDiffers s) := by
  unfold calDiffers; infer_instance

/-- Trace of configuring one source (loop body of board_manager_configure):
a calibration write iff the pair differs from the defaults, then always a
thermocouple-type write; failures only add warning events. -/
def configure_one (hw : Hardware) (src : ThermalSource) : List HwEvent :=
  (if calDiffers src then
    HwEvent.setCalibrationCoeffs src.address src.channel
        src.cal_coeffs.slope src.cal_coeffs.offset ::
      (if hw.setCalOk src.address src.channel then [] else
        [HwEvent.warnSetCal src.address src.channel])
   else []) ++
  (HwEvent.setTcType src.address src.channel src.tc_type ::
    (if hw.setTcOk src.address src.channel then [] else
      [HwEvent.warnSetTc src.address src.channel]))

/-- board_manager_configure: configures every source in registry order;
always returns THERMO_SUCCESS (per-source failures are warnings only). -/
def board_manager_configure (hw : Hardware) (mgr : BoardManager) : List HwEvent :=
  (mgr.sources.map (configure_one hw)).flatten

/-- board_manager_is_open. -/
def board_manager_is_open (mgr : BoardManager) (address : Nat) : Bool :=
  if address ≥ MAX_BOARDS then false else mgr.opened.getD address false

/-- board_manager_open_count. -/
def board_manager_open_count (mgr : BoardManager) : Nat :=
  (mgr.opened.take MAX_BOARDS).count true

/-! Collection engine (thermo-cli/src/commands/get.c). -/

/-- Dynamic per-channel snapshot (common.h, ChannelReading).  The C struct
pairs each value with a has_X flag set only on a successful read; that tagged
presence is modelled as an Option field. -/
structure ChannelReading where
  address : Nat
  channel : Nat
  temperature : Option ℚ
  adc_voltage : Option ℚ
  cjc_temp : Option ℚ
deriving DecidableEq, Repr

/-- channel_reading_init: a reading with no fields present. -/
def channel_reading_init (address channel : Nat) : ChannelReading :=
  ⟨address, channel, none, none, none⟩

/-- channel_reading_collect: reads each requested dynamic field, marking it
present only when the hardware read succeeds.  Returns the read-call trace
and the reading. -/
def channel_reading_collect (hw : Hardware) (address channel : Nat)
    (get_temp get_adc get_cjc : Bool) : List HwEvent × ChannelReading :=
  ((if get_temp then [HwEvent.readTemp address channel] else []) ++
   (if get_adc then [HwEvent.readAdc address channel] else []) ++
   (if get_cjc then [HwEvent.readCjc address channel] else []),
   { channel_reading_init address channel with
     temperature := if get_temp then hw.readTempVal address channel else none
     adc_voltage := if get_adc then hw.readAdcVal address channel else none
     cjc_temp := if get_cjc then hw.readCjcVal address channel else none })

/-- One full dynamic collection pass over the sources, in registry order
(the per-tick body of both collect_channels and the streaming loop). -/
def collect_dynamic (hw : Hardware) (sources : List ThermalSource)
    (get_temp get_adc get_cjc : Bool) : List HwEvent × List ChannelReading :=
  let pairs := sources.map fun s =>
    channel_reading_collect hw s.address s.channel get_temp get_adc get_cjc
  ((pairs.map Prod.fst).flatten, pairs.map Prod.snd)

/-- collect_channels: board init, configure, then one dynamic pass.  Returns
the trace and, on success, the readings together with the live manager.
(Static board-info reads are outside the modelled event alphabet; memory
allocation failure is not modelled.) -/
def collect_channels (hw : Hardware) (sources : List ThermalSource)
    (get_temp get_adc get_cjc : Bool) :
    List HwEvent × Option (List ChannelReading × BoardManager) :=
  match board_manager_init hw sources with
  | (evs, _, false) => (evs, none)
  | (evs, mgr, true) =>
    let cfg := board_manager_configure hw mgr
    let dyn := collect_dynamic hw sources get_temp get_adc get_cjc
    (evs ++ cfg ++ dyn.1, some (dyn.2, mgr))

/-- Single-shot path of cmd_get: collect, then board_manager_close.  When
collect_channels fails, its failed board_manager_init has already closed and
zeroed the manager, so the final close emits nothing.  Returns the trace and
the exit code. -/
def cmd_get_single (hw : Hardware) (sources : List ThermalSource)
    (get_temp get_adc get_cjc : Bool) : List HwEvent × Nat :=
  match collect_channels hw sources get_temp get_adc get_cjc with
  | (evs, none) => (evs, 1)
  | (evs, some (_, mgr)) => (evs ++ (board_manager_close mgr).1, 0)

/-- Streaming while-loop (stream_channels): `running k` is the value the
shutdown flag g_running holds when it is checked at the top of iteration
`k`; the loop body runs one complete dynamic pass and emits it as one
output.  `fuel` bounds the recursion (the C loop is unbounded; every
theorem supplies a schedule that cancels within the given fuel). -/
def stream_loop (hw : Hardware) (sources : List ThermalSource)
    (get_temp get_adc get_cjc : Bool) (running : Nat → Bool) :
    Nat → Nat → List HwEvent × List (List ChannelReading)
  | 0, _ => ([], [])
  | fuel + 1, k =>
    if running k then
      let tick := collect_dynamic hw sources get_temp get_adc get_cjc
      let rest := stream_loop hw sources get_temp get_adc get_cjc running fuel (k + 1)
      (tick.1 ++ rest.1, tick.2 :: rest.2)
    else ([], [])

/-- stream_channels: board init, configure, streaming loop until the
shutdown flag reads false, then board_manager_close.  Returns the trace,
the per-tick outputs and the exit code.  (The once-only static header and
text formatting are presentation, outside the event alphabet.) -/
def stream_channels (hw : Hardware) (sources : List ThermalSource)
    (get_temp get_adc get_cjc : Bool) (running : Nat → Bool) (fuel : Nat) :
    List HwEvent × List (List ChannelReading) × Nat :=
  match board_manager_init hw sources with
  | (evs, _, false) => (evs, [], 1)
  | (evs, mgr, true) =>
    let cfg := board_manager_configure hw mgr
    let lp := stream_loop hw sources get_temp get_adc get_cjc running fuel 0
    (evs ++ cfg ++ lp.1 ++ (board_manager_close mgr).1, lp.2, 0)

/-! Fusion bridge (src/bridge.c). -/

/-- Parsed JSON value, as produced by cJSON_Parse.  cJSON stores a NaN
number (the bridge writes 0.0/0.0 on a failed read) as a number node; NaN is
kept as its own constructor because it is not a rational. -/
inductive JVal where
  | jnull
  | jbool (b : Bool)
  | num (q : ℚ)
  | nan
  | str (s : String)
  | arr (items : List JVal)
  | obj (fields : List (String × JVal))

/-- Reading outcome to JSON number: the value on success, NaN on failure
(get_thermal_data writes 0.0/0.0 when the read call fails). -/
def read_field (result : Option ℚ) : JVal :=
  match result with
  | some v => JVal.num v
  | none => JVal.nan

/-- get_thermal_data: one fresh acquisition of temperature, ADC and CJC for
every configured source, in registry order; each source contributes a
sub-object with exactly the fields TEMP, ADC, CJC. -/
def get_thermal_data (hw : Hardware) (sources : List ThermalSource) :
    List HwEvent × List (String × JVal) :=
  ((sources.map fun s =>
      [HwEvent.readTemp s.address s.channel,
       HwEvent.readAdc s.address s.channel,
       HwEvent.readCjc s.address s.channel]).flatten,
   sources.map fun s =>
     (s.key, JVal.obj
       [("TEMP", read_field (hw.readTempVal s.address s.channel)),
        ("ADC", read_field (hw.readAdcVal s.address s.channel)),
        ("CJC", read_field (hw.readCjcVal s.address s.channel))]))

/-- inject_json: appends the TIMESTAMP string and then the nested
THERMOCOUPLE object holding the per-source readings (cJSON_AddItemToObject
appends at the end of the field list). -/
def inject_json (json_obj : List (String × JVal))
    (thermal_data : List (String × JVal)) (timestamp : String) :
    List (String × JVal) :=
  json_obj ++ [("TIMESTAMP", JVal.str timestamp),
               ("THERMOCOUPLE", JVal.obj thermal_data)]

/-- What the bridge emits for one child line: either the unmodified text of
a non-JSON line, or the augmented JSON object. -/
inductive BridgeOut where
  | passthrough (s : String)
  | augmented (fields : List (String × JVal))

/-- Drop a single trailing newline, as the read loop of bridge_run does
before examining a line (it overwrites line[len-1] with NUL when it is a
newline).  Stated over the character list so that concrete instances
evaluate. -/
def strip_newline (line : String) : String :=
  match line.data.getLast? with
  | some c => if c = '\n' then String.mk line.data.dropLast else line
  | none => line

/-- Per-line body of the bridge_run read loop.  `parse` models cJSON_Parse
restricted to object results (the fusion contract covers lines parsing as
JSON objects); `ts` is the timestamp string captured when the line arrived.
Empty lines and non-JSON lines pass through with no hardware call. -/
def bridge_process_line (hw : Hardware)
    (parse : String → Option (List (String × JVal)))
    (sources : List ThermalSource) (ts : String) (line : String) :
    List HwEvent × BridgeOut :=
  let stripped := strip_newline line
  if stripped = "" then ([], BridgeOut.passthrough "")
  else
    match parse stripped with
    | some fields =>
      let td := get_thermal_data hw sources
      (td.1, BridgeOut.augmented (inject_json fields td.2 ts))
    | none => ([], BridgeOut.passthrough stripped)

/-- Bytes written to stdout for one bridge output: the line text (for the
augmented case, its serialization by the external cJSON printer) plus the
re-appended newline. -/
def emit_line (serialize : List (String × JVal) → String) : BridgeOut → String
  | BridgeOut.passthrough s => s ++ "\n"
  | BridgeOut.augmented fields => serialize fields ++ "\n"

/-- cmd_fuse run (bridge_run followed by bridge_free): init and configure
the boards, filter the child's lines (each given with its arrival
timestamp), close every opened board, and yield the child's exit status.
On init failure nothing was left open (init rolled back) and the exit code
is 1. -/
def cmd_fuse_run (hw : Hardware)
    (parse : String → Option (List (String × JVal)))
    (sources : List ThermalSource) (lines : List (String × String))
    (childExit : Nat) : List HwEvent × List BridgeOut × Nat :=
  match board_manager_init hw sources with
  | (evs, _, false) => (evs, [], 1)
  | (evs, mgr, true) =>
    let cfg := board_manager_configure hw mgr
    let processed := lines.map fun tl =>
      bridge_process_line hw parse sources tl.1 tl.2
    (evs ++ cfg ++ (processed.map Prod.fst).flatten ++ (board_manager_close mgr).1,
     processed.map Prod.snd, childExit)

/-- Child-argument construction in cmd_fuse: append "--json" unless some
argument after the separator already equals "--json" or "-j". -/
def build_fuse_args (fuse_args : List String) : List String :=
  if fuse_args.any fun a => a = "--json" || a = "-j" then fuse_args
  else fuse_args ++ ["--json"]

/-! Configuration loading (c/src/common.c). -/

/-- Error codes of the loader (hardware.h THERMO_* codes). -/
inductive ThermoErr where
  | error
  | notFound
  | ioError
  | invalidParam
deriving DecidableEq, Repr

/-- Case-insensitive string comparison (cJSON's case_insensitive_strcmp),
over the character lists so that concrete instances evaluate. -/
def ci_eq (a b : String) : Bool :=
  a.data.map Char.toLower == b.data.map Char.toLower

/-- cJSON_GetObjectItem: first field whose name matches case-insensitively;
NULL on a non-object value. -/
def json_object_get (v : JVal) (key : String) : Option JVal :=
  match v with
  | JVal.obj fields => (fields.find? fun p => ci_eq p.1 key).map Prod.snd
  | _ => none

/-- The valueint of a cJSON node: the number truncated toward zero (the C
cast double-to-int), 0 for every non-number node.  The INT_MAX/INT_MIN
saturation of cJSON is not modelled; no configuration value approaches it. -/
def cjson_valueint (v : JVal) : Int :=
  match v with
  | JVal.num q => Int.tdiv q.num (q.den : Int)
  | _ => 0

/-- The C (uint8_t) cast. -/
def toUInt8 (i : Int) : Nat := (i % 256).toNat

/-- One iteration of the load_json_config source loop: non-objects and
records missing the address or channel field are skipped (with a warning on
stderr); every optional field falls back to its compiled-in default, the
key falling back to TEMP_<address>_<channel> built from the raw valueint
values. -/
def parse_json_source (v : JVal) : Option ThermalSource :=
  match v with
  | JVal.obj _ =>
    match json_object_get v "address", json_object_get v "channel" with
    | some addrItem, some chanItem =>
      let addrInt := cjson_valueint addrItem
      let chanInt := cjson_valueint chanItem
      some
        { key :=
            match json_object_get v "key" with
            | some (JVal.str s) => s
            | _ => "TEMP_" ++ toString addrInt ++ "_" ++ toString chanInt
          address := toUInt8 addrInt
          channel := toUInt8 chanInt
          tc_type :=
            match json_object_get v "tc_type" with
            | some (JVal.str s) => s
            | _ => "K"
          cal_coeffs :=
            { slope :=
                match json_object_get v "cal_slope" with
                | some (JVal.num q) => q
                | _ => DEFAULT_CALIBRATION_SLOPE
              offset :=
                match json_object_get v "cal_offset" with
                | some (JVal.num q) => q
                | _ => DEFAULT_CALIBRATION_OFFSET }
          update_interval :=
            match json_object_get v "update_interval" with
            | some (JVal.num q) => cjson_valueint (JVal.num q)
            | _ => DEFAULT_UPDATE_INTERVAL }
    | _, _ => none
  | _ => none

/-- load_json_config on an already-parsed root value: fails when the root
carries no "sources" array, otherwise keeps the records that parse,
skipping the rest. -/
def load_json_config (root : JVal) : Except ThermoErr (List ThermalSource) :=
  match json_object_get root "sources" with
  | some (JVal.arr items) => Except.ok (items.filterMap parse_json_source)
  | _ => Except.error ThermoErr.error

/-- Leading-digit accumulator of the C atoi/atof loops. -/
def parseDigits : List Char → Nat → Nat
  | c :: cs, acc => if c.isDigit then parseDigits cs (10 * acc + (c.toNat - 48)) else acc
  | [], acc => acc

/-- libc atoi on the YAML scalar text: optional whitespace and sign, then
leading digits. -/
def c_atoi (s : String) : Int :=
  let cs := s.toList.dropWhile fun c => c = ' ' || c = '\t' || c = '\n'
  match cs with
  | '-' :: rest => -(parseDigits rest 0 : Int)
  | '+' :: rest => (parseDigits rest 0 : Int)
  | _ => (parseDigits cs 0 : Int)

/-- Count of leading digits, for the fractional part of c_atof. -/
def countDigits : List Char → Nat
  | c :: cs => if c.isDigit then countDigits cs + 1 else 0
  | [] => 0

/-- libc atof on the YAML scalar text, for the calibration fields: sign,
integer digits, optional fraction (exponents are not modelled; no claim
exercises them). -/
def c_atof (s : String) : ℚ :=
  let cs := s.toList.dropWhile fun c => c = ' ' || c = '\t' || c = '\n'
  let signed : Bool × List Char :=
    match cs with
    | '-' :: rest => (true, rest)
    | '+' :: rest => (false, rest)
    | _ => (false, cs)
  let intPart := parseDigits signed.2 0
  let afterInt := signed.2.drop (countDigits signed.2)
  let mag : ℚ :=
    match afterInt with
    | '.' :: frac =>
      (intPart : ℚ) + (parseDigits frac 0 : ℚ) / ((10 : ℚ) ^ countDigits frac)
    | _ => (intPart : ℚ)
  if signed.1 then -mag else mag

/-- Scalar key/value assignment of the load_yaml_config event loop. -/
def yaml_apply_field (s : ThermalSource) (kv : String × String) : ThermalSource :=
  if kv.1 = "key" then { s with key := kv.2 }
  else if kv.1 = "address" then { s with address := toUInt8 (c_atoi kv.2) }
  else if kv.1 = "channel" then { s with channel := toUInt8 (c_atoi kv.2) }
  else if kv.1 = "tc_type" then { s with tc_type := kv.2 }
  else if kv.1 = "cal_slope" then
    { s with cal_coeffs := { s.cal_coeffs with slope := c_atof kv.2 } }
  else if kv.1 = "cal_offset" then
    { s with cal_coeffs := { s.cal_coeffs with offset := c_atof kv.2 } }
  else if kv.1 = "update_interval" then { s with update_interval := c_atoi kv.2 }
  else s

/-- One source mapping of load_yaml_config: the record starts zeroed with
the compiled-in calibration/interval defaults, each scalar pair is applied
in file order, and at mapping end the key and thermocouple type fall back
to TEMP_<address>_<channel> and "K" when still empty. -/
def load_yaml_source (fields : List (String × String)) : ThermalSource :=
  let base : ThermalSource :=
    { key := "", address := 0, channel := 0, tc_type := ""
      cal_coeffs := { slope := DEFAULT_CALIBRATION_SLOPE
                      offset := DEFAULT_CALIBRATION_OFFSET }
      update_interval := DEFAULT_UPDATE_INTERVAL }
  let s := fields.foldl yaml_apply_field base
  let s :=
    if s.key = "" then
      { s with key := "TEMP_" ++ toString s.address ++ "_" ++ toString s.channel }
    else s
  if s.tc_type = "" then { s with tc_type := "K" } else s

/-- Config-file path of cmd_get: a file that fails to load (none models an
unreadable or unparseable file) or an empty source list exits with code 1
before any hardware call; otherwise the loaded sources drive the single-shot
collection. -/
def cmd_get_with_config (hw : Hardware) (root : Option JVal)
    (get_temp get_adc get_cjc : Bool) : List HwEvent × Nat :=
  match root with
  | none => ([], 1)
  | some r =>
    match load_json_config r with
    | Except.error _ => ([], 1)
    | Except.ok srcs =>
      if srcs.length = 0 then ([], 1)
      else cmd_get_single hw srcs get_temp get_adc get_cjc

/-! Theorems. -/

/-- C10: for every fuse invocation, if none of the child-process arguments
after the separator equals "--json" or "-j", cmd_fuse appends "--json" as
the final child argument before spawning the child; otherwise the child
argument list is passed through unchanged. -/
theorem fuse_appends_json_iff_absent (args : List String) :
    build_fuse_args args =
      if ∀ a ∈ args, a ≠ "--json" ∧ a ≠ "-j" then args ++ ["--json"]
      else args := by
  by_cases h : ∀ a ∈ args, a ≠ "--json" ∧ a ≠ "-j"
  · rw [if_pos h]
    unfold build_fuse_args
    rw [if_neg]
    simp only [List.any_eq_true, Bool.or_eq_true, decide_eq_true_eq]
    push_neg
    intro a ha
    exact ⟨(h a ha).1, (h a ha).2⟩
  · rw [if_neg h]
    unfold build_fuse_args
    rw [if_pos]
    simp only [List.any_eq_true, Bool.or_eq_true, decide_eq_true_eq]
    push_neg at h
    obtain ⟨a, ha, hne⟩ := h
    refine ⟨a, ha, ?_⟩
    by_cases h1 : a = "--json"
    · exact Or.inl h1
    · exact Or.inr (hne h1)

/-- C5: a child line that does not parse as JSON passes through the bridge
with no hardware acquisition and no augmentation; the emitted bytes are the
line itself, byte-equal apart from trailing-newline normalization. -/
theorem bridge_non_json_passthrough (hw : Hardware)
    (parse : String → Option (List (String × JVal)))
    (sources : List ThermalSource) (ts line : String)
    (serialize : List (String × JVal) → String)
    (hparse : parse (strip_newline line) = none) :
    bridge_process_line hw parse sources ts line
      = ([], BridgeOut.passthrough (strip_newline line)) ∧
    emit_line serialize (bridge_process_line hw parse sources ts line).2
      = strip_newline line ++ "\n" := by
  unfold bridge_process_line
  by_cases h : strip_newline line = ""
  · simp [h, emit_line]
  · simp [h, hparse, emit_line]

/-- Closed instance for bridge_non_json_passthrough: a plain-text line is
re-emitted unchanged. -/
theorem bridge_non_json_passthrough_witness :
    bridge_process_line hwAllOk (fun _ => none) [] "T" "plain text\n"
      = ([], BridgeOut.passthrough "plain text") ∧
    emit_line (fun _ => "") (bridge_process_line hwAllOk (fun _ => none) [] "T" "plain text\n").2
      = "plain text\n" := by
  have h := bridge_non_json_passthrough hwAllOk (fun _ => none) [] "T"
    "plain text\n" (fun _ => "") rfl
  exact ⟨h.1.trans (by rfl), h.2.trans (by rfl)⟩

/-- C4: every child line parsing as a JSON object triggers exactly one
fresh acquisition (three reads per configured source) and is re-emitted as
the original object augmented with a TIMESTAMP string and the nested
per-source readings object that always carries all three of TEMP, ADC and
CJC, a failed individual read appearing as NaN rather than being omitted. -/
theorem bridge_json_line_augmented (hw : Hardware)
    (parse : String → Option (List (String × JVal)))
    (sources : List ThermalSource) (ts line : String)
    (fields : List (String × JVal))
    (hne : strip_newline line ≠ "")
    (hparse : parse (strip_newline line) = some fields) :
    bridge_process_line hw parse sources ts line
      = ((get_thermal_data hw sources).1,
         BridgeOut.augmented (fields ++
           [("TIMESTAMP", JVal.str ts),
            ("THERMOCOUPLE", JVal.obj (get_thermal_data hw sources).2)])) ∧
    ((get_thermal_data hw sources).2).map Prod.fst
      = sources.map ThermalSource.key ∧
    (∀ s ∈ sources,
      (s.key, JVal.obj
        [("TEMP", read_field (hw.readTempVal s.address s.channel)),
         ("ADC", read_field (hw.readAdcVal s.address s.channel)),
         ("CJC", read_field (hw.readCjcVal s.address s.channel))])
        ∈ (get_thermal_data hw sources).2) ∧
    (∀ r : Option ℚ, read_field r = JVal.nan ↔ r = none) ∧
    ((get_thermal_data hw sources).1).length = 3 * sources.length ∧
    (∀ s ∈ sources,
      HwEvent.readTemp s.address s.channel ∈ (get_thermal_data hw sources).1 ∧
      HwEvent.readAdc s.address s.channel ∈ (get_thermal_data hw sources).1 ∧
      HwEvent.readCjc s.address s.channel ∈ (get_thermal_data hw sources).1) := by
  refine ⟨?_, ?_, ?_, ?_, ?_, ?_⟩
  · unfold bridge_process_line
    simp [hne, hparse, inject_json]
  · simp [get_thermal_data]
  · intro s hs
    simp only [get_thermal_data, List.mem_map]
    exact ⟨s, hs, rfl⟩
  · intro r
    cases r <;> simp [read_field]
  · simp only [get_thermal_data]
    induction sources with
    | nil => simp
    | cons s ss ih =>
      simp only [List.map_cons, List.flatten_cons, List.length_append,
        List.length_cons, List.length_nil] at ih ⊢
      omega
  · intro s hs
    simp only [get_thermal_data, List.mem_flatten, List.mem_map]
    exact ⟨⟨[HwEvent.readTemp s.address s.channel,
             HwEvent.readAdc s.address s.channel,
             HwEvent.readCjc s.address s.channel], ⟨s, hs, rfl⟩, by simp⟩,
           ⟨[HwEvent.readTemp s.address s.channel,
             HwEvent.readAdc s.address s.channel,
             HwEvent.readCjc s.address s.channel], ⟨s, hs, rfl⟩, by simp⟩,
           ⟨[HwEvent.readTemp s.address s.channel,
             HwEvent.readAdc s.address s.channel,
             HwEvent.readCjc s.address s.channel], ⟨s, hs, rfl⟩, by simp⟩⟩

/-- Hardware oracle on which the ADC read fails and every other call
succeeds, used to exhibit the NaN-on-failure behaviour. -/
def hwAdcFail : Hardware :=
  { hwAllOk with readAdcVal := fun _ _ => none }

/-- Example source T1 on address 0, channel 0 with default settings. -/
def srcT1 : ThermalSource :=
  ⟨"T1", 0, 0, "K",
   ⟨DEFAULT_CALIBRATION_SLOPE, DEFAULT_CALIBRATION_OFFSET⟩, 1⟩

/-- Closed instance for bridge_json_line_augmented: a JSON line gains
TIMESTAMP and the THERMOCOUPLE object, the failed ADC read appearing as
NaN. -/
theorem bridge_json_line_augmented_witness :
    bridge_process_line hwAdcFail (fun _ => some [("a", JVal.num 1)])
        [srcT1] "TS" "x"
      = ([HwEvent.readTemp 0 0, HwEvent.readAdc 0 0, HwEvent.readCjc 0 0],
         BridgeOut.augmented
           [("a", JVal.num 1), ("TIMESTAMP", JVal.str "TS"),
            ("THERMOCOUPLE", JVal.obj
              [("T1", JVal.obj
                [("TEMP", JVal.num 0), ("ADC", JVal.nan),
                 ("CJC", JVal.num 0)])])]) := by
  have h := bridge_json_line_augmented hwAdcFail
    (fun _ => some [("a", JVal.num 1)]) [srcT1] "TS" "x" [("a", JVal.num 1)]
    (by decide) rfl
  exact h.1.trans (by rfl)

/-- A config record missing address or channel yields no source: the loader
loop skips it with a warning and continues. -/
theorem parse_json_source_skip (v : JVal)
    (hv : json_object_get v "address" = none ∨
          json_object_get v "channel" = none) :
    parse_json_source v = none := by
  unfold parse_json_source
  cases v <;> try rfl
  rcases hv with h | h
  · rw [h]
  · rw [h]
    cases json_object_get _ "address" <;> rfl

/-- C9: a config record with all optional fields omitted loads, through
both the JSON and the YAML loader, to the hand-built ThermalSource with
the compiled-in defaults: slope 0.999560, offset -38.955465, update
interval 1, thermocouple type K, and the non-empty auto-generated key
TEMP_<address>_<channel>. -/
theorem config_record_defaults (a c : Nat) (sa sc : String)
    (ha : a < 256) (hc : c < 256)
    (hsa : c_atoi sa = (a : Int)) (hsc : c_atoi sc = (c : Int)) :
    parse_json_source
        (JVal.obj [("address", JVal.num (a : ℚ)), ("channel", JVal.num (c : ℚ))])
      = some ⟨"TEMP_" ++ toString a ++ "_" ++ toString c, a, c, "K",
              ⟨DEFAULT_CALIBRATION_SLOPE, DEFAULT_CALIBRATION_OFFSET⟩, 1⟩ ∧
    load_json_config (JVal.obj [("sources", JVal.arr
        [JVal.obj [("address", JVal.num (a : ℚ)), ("channel", JVal.num (c : ℚ))]])])
      = Except.ok [⟨"TEMP_" ++ toString a ++ "_" ++ toString c, a, c, "K",
              ⟨DEFAULT_CALIBRATION_SLOPE, DEFAULT_CALIBRATION_OFFSET⟩, 1⟩] ∧
    load_yaml_source [("address", sa), ("channel", sc)]
      = ⟨"TEMP_" ++ toString a ++ "_" ++ toString c, a, c, "K",
         ⟨DEFAULT_CALIBRATION_SLOPE, DEFAULT_CALIBRATION_OFFSET⟩, 1⟩ ∧
    ("TEMP_" ++ toString a ++ "_" ++ toString c) ≠ "" := by
  have hvala : cjson_valueint (JVal.num (a : ℚ)) = (a : Int) := by
    simp [cjson_valueint, Rat.num_natCast, Rat.den_natCast, Int.tdiv_one]
  have hvalc : cjson_valueint (JVal.num (c : ℚ)) = (c : Int) := by
    simp [cjson_valueint, Rat.num_natCast, Rat.den_natCast, Int.tdiv_one]
  have hcast : ∀ n : Nat, n < 256 → toUInt8 (n : Int) = n := by
    intro n hn
    unfold toUInt8
    omega
  have hstr : ∀ n : Nat, toString ((n : Int)) = toString n := fun n => rfl
  have hkey : ("TEMP_" ++ toString a ++ "_" ++ toString c) ≠ "" := by
    intro h
    have hl := congrArg String.length h
    rw [String.length_append, String.length_append, String.length_append] at hl
    have h5 : ("TEMP_" : String).length = 5 := rfl
    have h0 : ("" : String).length = 0 := rfl
    omega
  refine ⟨?_, ?_, ?_, hkey⟩
  · have e1 : parse_json_source
        (JVal.obj [("address", JVal.num (a : ℚ)), ("channel", JVal.num (c : ℚ))])
        = some ⟨"TEMP_" ++ toString (cjson_valueint (JVal.num (a : ℚ))) ++
                  "_" ++ toString (cjson_valueint (JVal.num (c : ℚ))),
                toUInt8 (cjson_valueint (JVal.num (a : ℚ))),
                toUInt8 (cjson_valueint (JVal.num (c : ℚ))), "K",
                ⟨DEFAULT_CALIBRATION_SLOPE, DEFAULT_CALIBRATION_OFFSET⟩,
                DEFAULT_UPDATE_INTERVAL⟩ := rfl
    rw [e1, hvala, hvalc, hstr a, hstr c, hcast a ha, hcast c hc]
    rfl
  · have e2 : load_json_config (JVal.obj [("sources", JVal.arr
        [JVal.obj [("address", JVal.num (a : ℚ)), ("channel", JVal.num (c : ℚ))]])])
        = Except.ok [⟨"TEMP_" ++ toString (cjson_valueint (JVal.num (a : ℚ))) ++
                  "_" ++ toString (cjson_valueint (JVal.num (c : ℚ))),
                toUInt8 (cjson_valueint (JVal.num (a : ℚ))),
                toUInt8 (cjson_valueint (JVal.num (c : ℚ))), "K",
                ⟨DEFAULT_CALIBRATION_SLOPE, DEFAULT_CALIBRATION_OFFSET⟩,
                DEFAULT_UPDATE_INTERVAL⟩] := rfl
    rw [e2, hvala, hvalc, hstr a, hstr c, hcast a ha, hcast c hc]
    rfl
  · have e3 : load_yaml_source [("address", sa), ("channel", sc)]
        = ⟨"TEMP_" ++ toString (toUInt8 (c_atoi sa)) ++
             "_" ++ toString (toUInt8 (c_atoi sc)),
           toUInt8 (c_atoi sa), toUInt8 (c_atoi sc), "K",
           ⟨DEFAULT_CALIBRATION_SLOPE, DEFAULT_CALIBRATION_OFFSET⟩,
           DEFAULT_UPDATE_INTERVAL⟩ := rfl
    rw [e3, hsa, hsc, hcast a ha, hcast c hc]
    rfl

/-- Closed instance for config_record_defaults at address 0, channel 2. -/
theorem config_record_defaults_witness :
    parse_json_source
        (JVal.obj [("address", JVal.num (0 : ℚ)), ("channel", JVal.num (2 : ℚ))])
      = some ⟨"TEMP_0_2", 0, 2, "K",
              ⟨DEFAULT_CALIBRATION_SLOPE, DEFAULT_CALIBRATION_OFFSET⟩, 1⟩ ∧
    load_yaml_source [("address", "0"), ("channel", "2")]
      = ⟨"TEMP_0_2", 0, 2, "K",
         ⟨DEFAULT_CALIBRATION_SLOPE, DEFAULT_CALIBRATION_OFFSET⟩, 1⟩ := by
  have h := config_record_defaults 0 2 "0" "2" (by decide) (by decide) rfl rfl
  exact ⟨h.1.trans (by rfl), h.2.2.1.trans (by rfl)⟩

/-- C8 counterexample: a configuration containing a source record that
lacks its required fields loads successfully with the offending record
skipped — the whole load does not fail. -/
theorem config_missing_fields_counterexample :
    load_json_config (JVal.obj [("sources",
        JVal.arr [JVal.obj [("key", JVal.str "X")]])])
      = Except.ok [] ∧
    load_json_config (JVal.obj [("sources", JVal.arr
        [JVal.obj [("address", JVal.num 0), ("channel", JVal.num 2)],
         JVal.obj [("key", JVal.str "X")]])])
      = Except.ok [⟨"TEMP_0_2", 0, 2, "K",
          ⟨DEFAULT_CALIBRATION_SLOPE, DEFAULT_CALIBRATION_OFFSET⟩, 1⟩] :=
  ⟨rfl, rfl⟩

/-- C8 amended: a source record missing address or channel is skipped with
a warning and the load succeeds with the remaining records; the fatal
configuration errors are an unreadable/unparseable file or a root without
a "sources" array, and those make cmd_get exit with code 1 before any
hardware call. -/
theorem config_missing_fields_skipped (pre post : List JVal) (v : JVal)
    (hw : Hardware) (gt ga gc : Bool) (root : JVal) (e : ThermoErr)
    (hv : json_object_get v "address" = none ∨
          json_object_get v "channel" = none) :
    load_json_config (JVal.obj [("sources", JVal.arr (pre ++ v :: post))])
      = load_json_config (JVal.obj [("sources", JVal.arr (pre ++ post))]) ∧
    (∃ srcs, load_json_config
        (JVal.obj [("sources", JVal.arr (pre ++ v :: post))])
      = Except.ok srcs) ∧
    (load_json_config root = Except.error e →
      cmd_get_with_config hw (some root) gt ga gc = ([], 1)) ∧
    cmd_get_with_config hw none gt ga gc = ([], 1) := by
  have hskip := parse_json_source_skip v hv
  refine ⟨?_, ?_, ?_, rfl⟩
  · unfold load_json_config
    simp only [json_object_get, List.find?]
    norm_num [ci_eq, List.filterMap_append, List.filterMap_cons, hskip]
  · unfold load_json_config
    simp only [json_object_get, List.find?]
    norm_num [ci_eq]
  · intro hroot
    simp [cmd_get_with_config, hroot]

/-- Closed instance for config_missing_fields_skipped: one valid and one
invalid record. -/
theorem config_missing_fields_skipped_witness :
    load_json_config (JVal.obj [("sources", JVal.arr
        ([JVal.obj [("address", JVal.num 0), ("channel", JVal.num 2)]] ++
         JVal.obj [("key", JVal.str "X")] :: []))])
      = load_json_config (JVal.obj [("sources", JVal.arr
        ([JVal.obj [("address", JVal.num 0), ("channel", JVal.num 2)]] ++ []))]) ∧
    cmd_get_with_config hwAllOk none true false false = ([], 1) := by
  have h := config_missing_fields_skipped
    [JVal.obj [("address", JVal.num 0), ("channel", JVal.num 2)]] []
    (JVal.obj [("key", JVal.str "X")]) hwAllOk true false false
    (JVal.obj []) ThermoErr.error (Or.inl rfl)
  exact ⟨h.1, h.2.2.2⟩

/-! Helper lemmas about the board-manager loops. -/

theorem getD_set_self (l : List Bool) (i : Nat) (b : Bool) (h : i < l.length) :
    (l.set i b).getD i false = b := by
  simp [List.getD_eq_getElem?_getD, List.getElem?_set_self, h]

theorem getD_set_ne (l : List Bool) (i j : Nat) (b : Bool) (h : j ≠ i) :
    (l.set i b).getD j false = l.getD j false := by
  simp [List.getD_eq_getElem?_getD, List.getElem?_set_ne (Ne.symm h)]

theorem lt_length_of_getD (l : List Bool) (a : Nat) (h : l.getD a false = true) :
    a < l.length := by
  by_contra hc
  push_neg at hc
  rw [List.getD_eq_getElem?_getD, List.getElem?_eq_none (by omega)] at h
  simp at h

theorem bm_init_go_nil (hw : Hardware) (opened : List Bool) :
    bm_init_go hw opened [] = ([], opened, true) := rfl

theorem bm_init_go_cons_skip (hw : Hardware) (opened : List Bool)
    (s : ThermalSource) (rest : List ThermalSource)
    (h : opened.getD s.address false = true) :
    bm_init_go hw opened (s :: rest) = bm_init_go hw opened rest := by
  simp only [bm_init_go]
  rw [if_pos h]

theorem bm_init_go_cons_open (hw : Hardware) (opened : List Bool)
    (s : ThermalSource) (rest : List ThermalSource)
    (h1 : opened.getD s.address false = false)
    (h2 : hw.openOk s.address = true) :
    bm_init_go hw opened (s :: rest) =
      (HwEvent.openB s.address ::
        ((if s.update_interval > 0 ∧ s.update_interval ≠ DEFAULT_UPDATE_INTERVAL
          then setIntervalEvents hw s.address s.update_interval else []) ++
         (bm_init_go hw (opened.set s.address true) rest).1),
       (bm_init_go hw (opened.set s.address true) rest).2) := by
  simp only [bm_init_go]
  rw [if_neg (by rw [h1]; exact Bool.false_ne_true), if_pos h2]

theorem bm_init_go_cons_fail (hw : Hardware) (opened : List Bool)
    (s : ThermalSource) (rest : List ThermalSource)
    (h1 : opened.getD s.address false = false)
    (h2 : hw.openOk s.address = false) :
    bm_init_go hw opened (s :: rest) =
      (HwEvent.openB s.address :: closeEvents opened,
       List.replicate MAX_BOARDS false, false) := by
  simp only [bm_init_go]
  rw [if_neg (by rw [h1]; exact Bool.false_ne_true),
      if_neg (by rw [h2]; exact Bool.false_ne_true)]

theorem count_closeB_filterMap_range (p : Nat → Bool) (a n : Nat) :
    ((List.range n).filterMap fun i =>
        if p i then some (HwEvent.closeB i) else none).count (HwEvent.closeB a)
      = if a < n ∧ p a = true then 1 else 0 := by
  induction n with
  | zero => simp
  | succ n ih =>
    rw [List.range_succ, List.filterMap_append, List.count_append, ih]
    have hsingle : (List.filterMap (fun i =>
        if p i then some (HwEvent.closeB i) else none) [n])
        = if p n then [HwEvent.closeB n] else [] := by
      by_cases hp : p n = true <;> simp [hp]
    rw [hsingle]
    by_cases hpa : p a = true
    · simp only [hpa, and_true]
      by_cases ha : a = n
      · subst ha
        rw [if_pos hpa]
        have hcnt : List.count (HwEvent.closeB a) [HwEvent.closeB a] = 1 := by
          simp
        rw [hcnt]
        split_ifs <;> omega
      · by_cases hp : p n = true
        · rw [if_pos hp]
          have hcnt : List.count (HwEvent.closeB a) [HwEvent.closeB n] = 0 := by
            simp [ha]
          rw [hcnt]
          split_ifs <;> omega
        · rw [if_neg hp]
          simp only [List.count_nil, Nat.add_zero]
          split_ifs <;> omega
    · simp only [hpa, and_false, if_false]
      by_cases hp : p n = true
      · rw [if_pos hp]
        have ha : a ≠ n := fun h => hpa (h ▸ hp)
        simp [ha]
      · rw [if_neg hp]
        simp

theorem count_closeB_closeEvents (opened : List Bool) (a : Nat) :
    (closeEvents opened).count (HwEvent.closeB a)
      = if a < MAX_BOARDS ∧ opened.getD a false = true then 1 else 0 :=
  count_closeB_filterMap_range (fun i => opened.getD i false) a MAX_BOARDS

theorem mem_closeEvents (opened : List Bool) (e : HwEvent)
    (h : e ∈ closeEvents opened) : ∃ i, e = HwEvent.closeB i := by
  simp only [closeEvents, List.mem_filterMap] at h
  obtain ⟨i, _, hi⟩ := h
  by_cases hp : opened.getD i false = true
  · rw [if_pos hp] at hi
    exact ⟨i, (Option.some_inj.mp hi).symm⟩
  · rw [if_neg hp] at hi
    cases hi

theorem count_closeEvents_of_ne (opened : List Bool) (e : HwEvent)
    (he : ∀ i, e ≠ HwEvent.closeB i) :
    (closeEvents opened).count e = 0 := by
  rw [List.count_eq_zero]
  intro hmem
  obtain ⟨i, hi⟩ := mem_closeEvents opened e hmem
  exact he i hi

theorem mem_setIntervalEvents (hw : Hardware) (addr : Nat) (interval : Int)
    (e : HwEvent) (h : e ∈ setIntervalEvents hw addr interval) :
    e = HwEvent.setUpdateInterval addr interval ∨ e = HwEvent.warnSetInterval addr := by
  unfold setIntervalEvents at h
  by_cases hp : hw.setIntervalOk addr = true
  · simp [hp] at h
    exact Or.inl h
  · simp [hp] at h
    rcases h with h | h
    · exact Or.inl h
    · exact Or.inr h

theorem count_setIntervalEvents_of_ne (hw : Hardware) (addr : Nat)
    (interval : Int) (e : HwEvent)
    (h1 : e ≠ HwEvent.setUpdateInterval addr interval)
    (h2 : e ≠ HwEvent.warnSetInterval addr) :
    (setIntervalEvents hw addr interval).count e = 0 := by
  rw [List.count_eq_zero]
  intro hmem
  rcases mem_setIntervalEvents hw addr interval e hmem with h | h
  · exact h1 h
  · exact h2 h

theorem count_openB_setIntervalEvents (hw : Hardware) (addr : Nat)
    (interval : Int) (a : Nat) :
    (setIntervalEvents hw addr interval).count (HwEvent.openB a) = 0 :=
  count_setIntervalEvents_of_ne hw addr interval _ (by simp) (by simp)

theorem count_closeB_setIntervalEvents (hw : Hardware) (addr : Nat)
    (interval : Int) (a : Nat) :
    (setIntervalEvents hw addr interval).count (HwEvent.closeB a) = 0 :=
  count_setIntervalEvents_of_ne hw addr interval _ (by simp) (by simp)

theorem count_openB_intervalBlock (hw : Hardware) (s : ThermalSource) (a : Nat) :
    ((if s.update_interval > 0 ∧ s.update_interval ≠ DEFAULT_UPDATE_INTERVAL
      then setIntervalEvents hw s.address s.update_interval
      else []) : List HwEvent).count (HwEvent.openB a) = 0 := by
  split
  · exact count_openB_setIntervalEvents hw s.address s.update_interval a
  · simp

theorem count_closeB_intervalBlock (hw : Hardware) (s : ThermalSource) (a : Nat) :
    ((if s.update_interval > 0 ∧ s.update_interval ≠ DEFAULT_UPDATE_INTERVAL
      then setIntervalEvents hw s.address s.update_interval
      else []) : List HwEvent).count (HwEvent.closeB a) = 0 := by
  split
  · exact count_closeB_setIntervalEvents hw s.address s.update_interval a
  · simp

theorem bm_init_go_ok_of_all (hw : Hardware) (ss : List ThermalSource) :
    ∀ opened : List Bool, (∀ s ∈ ss, hw.openOk s.address = true) →
      (bm_init_go hw opened ss).2.2 = true := by
  induction ss with
  | nil => intro opened _; rfl
  | cons s rest ih =>
    intro opened h
    by_cases h1 : opened.getD s.address false = true
    · rw [bm_init_go_cons_skip hw opened s rest h1]
      exact ih opened fun t ht => h t (List.mem_cons_of_mem s ht)
    · have h1' : opened.getD s.address false = false := by
        simpa using h1
      rw [bm_init_go_cons_open hw opened s rest h1'
        (h s (List.mem_cons_self s rest))]
      exact ih _ fun t ht => h t (List.mem_cons_of_mem s ht)

theorem bm_init_go_count_closeB_of_ok (hw : Hardware) (ss : List ThermalSource) :
    ∀ opened : List Bool, (bm_init_go hw opened ss).2.2 = true →
      ∀ a, (bm_init_go hw opened ss).1.count (HwEvent.closeB a) = 0 := by
  induction ss with
  | nil => intro opened _ a; rfl
  | cons s rest ih =>
    intro opened hok a
    by_cases h1 : opened.getD s.address false = true
    · rw [bm_init_go_cons_skip hw opened s rest h1] at hok ⊢
      exact ih opened hok a
    · have h1' : opened.getD s.address false = false := by simpa using h1
      by_cases h2 : hw.openOk s.address = true
      · rw [bm_init_go_cons_open hw opened s rest h1' h2] at hok ⊢
        simp only [List.count_cons, List.count_append]
        rw [count_closeB_intervalBlock hw s a, ih _ hok a]
        simp
      · have h2' : hw.openOk s.address = false := by simpa using h2
        rw [bm_init_go_cons_fail hw opened s rest h1' h2'] at hok
        simp at hok

theorem bm_init_go_flags_length (hw : Hardware) (ss : List ThermalSource) :
    ∀ opened : List Bool, opened.length = MAX_BOARDS →
      (bm_init_go hw opened ss).2.1.length = MAX_BOARDS := by
  induction ss with
  | nil => intro opened h; exact h
  | cons s rest ih =>
    intro opened h
    by_cases h1 : opened.getD s.address false = true
    · rw [bm_init_go_cons_skip hw opened s rest h1]
      exact ih opened h
    · have h1' : opened.getD s.address false = false := by simpa using h1
      by_cases h2 : hw.openOk s.address = true
      · rw [bm_init_go_cons_open hw opened s rest h1' h2]
        exact ih _ (by simpa using h)
      · have h2' : hw.openOk s.address = false := by simpa using h2
        rw [bm_init_go_cons_fail hw opened s rest h1' h2']
        simp [MAX_BOARDS]

theorem bm_init_go_flags_of_fail (hw : Hardware) (ss : List ThermalSource) :
    ∀ opened : List Bool, (bm_init_go hw opened ss).2.2 = false →
      (bm_init_go hw opened ss).2.1 = List.replicate MAX_BOARDS false := by
  induction ss with
  | nil => intro opened h; simp [bm_init_go_nil] at h
  | cons s rest ih =>
    intro opened hf
    by_cases h1 : opened.getD s.address false = true
    · rw [bm_init_go_cons_skip hw opened s rest h1] at hf ⊢
      exact ih opened hf
    · have h1' : opened.getD s.address false = false := by simpa using h1
      by_cases h2 : hw.openOk s.address = true
      · rw [bm_init_go_cons_open hw opened s rest h1' h2] at hf ⊢
        exact ih _ hf
      · have h2' : hw.openOk s.address = false := by simpa using h2
        rw [bm_init_go_cons_fail hw opened s rest h1' h2']

theorem bm_init_go_flags_of_ok (hw : Hardware) (ss : List ThermalSource) :
    ∀ opened : List Bool, opened.length = MAX_BOARDS →
      (∀ s ∈ ss, s.address < MAX_BOARDS) →
      (bm_init_go hw opened ss).2.2 = true →
      ∀ a, ((bm_init_go hw opened ss).2.1.getD a false = true ↔
        (opened.getD a false = true ∨ a ∈ ss.map ThermalSource.address)) := by
  induction ss with
  | nil => intro opened _ _ _ a; simp [bm_init_go_nil]
  | cons s rest ih =>
    intro opened hlen haddr hok a
    by_cases h1 : opened.getD s.address false = true
    · rw [bm_init_go_cons_skip hw opened s rest h1] at hok ⊢
      rw [ih opened hlen (fun t ht => haddr t (List.mem_cons_of_mem s ht)) hok a]
      constructor
      · rintro (h | h)
        · exact Or.inl h
        · exact Or.inr (by simp [List.mem_cons] at h ⊢; tauto)
      · rintro (h | h)
        · exact Or.inl h
        · simp only [List.map_cons, List.mem_cons] at h
          rcases h with h | h
          · subst h; exact Or.inl h1
          · exact Or.inr (by simpa using h)
    · have h1' : opened.getD s.address false = false := by simpa using h1
      by_cases h2 : hw.openOk s.address = true
      · rw [bm_init_go_cons_open hw opened s rest h1' h2] at hok ⊢
        have hlen' : (opened.set s.address true).length = MAX_BOARDS := by
          simpa using hlen
        rw [ih _ hlen' (fun t ht => haddr t (List.mem_cons_of_mem s ht)) hok a]
        have hsa : s.address < opened.length := by
          rw [hlen]; exact haddr s (List.mem_cons_self s rest)
        by_cases ha : a = s.address
        · subst ha
          rw [getD_set_self opened s.address true hsa]
          simp
        · rw [getD_set_ne opened s.address a true ha]
          simp only [List.map_cons, List.mem_cons]
          constructor
          · rintro (h | h)
            · exact Or.inl h
            · exact Or.inr (Or.inr h)
          · rintro (h | h | h)
            · exact Or.inl h
            · exact absurd h ha
            · exact Or.inr h
      · have h2' : hw.openOk s.address = false := by simpa using h2
        rw [bm_init_go_cons_fail hw opened s rest h1' h2'] at hok
        simp at hok

theorem bm_init_go_count_openB_flagged (hw : Hardware) (ss : List ThermalSource) :
    ∀ (opened : List Bool) (a : Nat), opened.getD a false = true →
      (bm_init_go hw opened ss).1.count (HwEvent.openB a) = 0 := by
  induction ss with
  | nil => intro opened a _; rfl
  | cons s rest ih =>
    intro opened a hflag
    have hne : a ≠ s.address → (opened.set s.address true).getD a false = true := by
      intro h
      rw [getD_set_ne opened s.address a true h]
      exact hflag
    by_cases h1 : opened.getD s.address false = true
    · rw [bm_init_go_cons_skip hw opened s rest h1]
      exact ih opened a hflag
    · have h1' : opened.getD s.address false = false := by simpa using h1
      have hna : a ≠ s.address := by
        intro h; rw [h] at hflag; rw [hflag] at h1'; cases h1'
      by_cases h2 : hw.openOk s.address = true
      · rw [bm_init_go_cons_open hw opened s rest h1' h2]
        simp only [List.count_cons, List.count_append]
        rw [count_openB_intervalBlock hw s a, ih _ a (hne hna)]
        simp only [Nat.zero_add, Nat.add_zero]
        have : (HwEvent.openB a == HwEvent.openB s.address) = false := by
          simp [hna]
        simp [this]
        omega
      · have h2' : hw.openOk s.address = false := by simpa using h2
        rw [bm_init_go_cons_fail hw opened s rest h1' h2']
        simp only [List.count_cons]
        rw [count_closeEvents_of_ne opened _ (by intro i; simp)]
        have : (HwEvent.openB a == HwEvent.openB s.address) = false := by
          simp [hna]
        simp [this]
        omega

theorem bm_init_go_count_openB_of_ok (hw : Hardware) (ss : List ThermalSource) :
    ∀ opened : List Bool, opened.length = MAX_BOARDS →
      (∀ s ∈ ss, s.address < MAX_BOARDS) →
      (bm_init_go hw opened ss).2.2 = true →
      ∀ a, (bm_init_go hw opened ss).1.count (HwEvent.openB a)
        = if opened.getD a false = false ∧ a ∈ ss.map ThermalSource.address
          then 1 else 0 := by
  induction ss with
  | nil => intro opened _ _ _ a; simp [bm_init_go_nil]
  | cons s rest ih =>
    intro opened hlen haddr hok a
    by_cases h1 : opened.getD s.address false = true
    · rw [bm_init_go_cons_skip hw opened s rest h1] at hok ⊢
      rw [ih opened hlen (fun t ht => haddr t (List.mem_cons_of_mem s ht)) hok a]
      by_cases ha : a = s.address
      · subst ha
        rw [h1]
        simp
      · simp only [List.map_cons, List.mem_cons]
        by_cases hf : opened.getD a false = false
        · rw [hf]
          simp [ha]
        · have hf' : opened.getD a false = true := by simpa using hf
          rw [hf']
          simp
    · have h1' : opened.getD s.address false = false := by simpa using h1
      by_cases h2 : hw.openOk s.address = true
      · rw [bm_init_go_cons_open hw opened s rest h1' h2] at hok ⊢
        have hsa : s.address < opened.length := by
          rw [hlen]; exact haddr s (List.mem_cons_self s rest)
        simp only [List.count_cons, List.count_append]
        rw [count_openB_intervalBlock hw s a]
        by_cases ha : a = s.address
        · subst ha
          rw [bm_init_go_count_openB_flagged hw rest _ s.address
            (getD_set_self opened s.address true hsa)]
          rw [h1']
          simp
        · rw [ih _ (by simpa using hlen)
            (fun t ht => haddr t (List.mem_cons_of_mem s ht)) hok a]
          rw [getD_set_ne opened s.address a true ha]
          have hbne : (HwEvent.openB a == HwEvent.openB s.address) = false := by
            simp [ha]
          simp only [List.map_cons, List.mem_cons, hbne, if_false, Nat.add_zero,
            Nat.zero_add, cond_false]
          by_cases hf : opened.getD a false = false
          · rw [hf]
            simp [ha]
            omega
          · have hf' : opened.getD a false = true := by simpa using hf
            rw [hf']
            simp
            omega
      · have h2' : hw.openOk s.address = false := by simpa using h2
        rw [bm_init_go_cons_fail hw opened s rest h1' h2'] at hok
        simp at hok

theorem bm_init_go_count_openB_le_one (hw : Hardware) (ss : List ThermalSource) :
    ∀ (opened : List Bool) (a : Nat), a < opened.length →
      (bm_init_go hw opened ss).1.count (HwEvent.openB a) ≤ 1 := by
  induction ss with
  | nil => intro opened a _; simp [bm_init_go_nil]
  | cons s rest ih =>
    intro opened a halen
    by_cases h1 : opened.getD s.address false = true
    · rw [bm_init_go_cons_skip hw opened s rest h1]
      exact ih opened a halen
    · have h1' : opened.getD s.address false = false := by simpa using h1
      by_cases h2 : hw.openOk s.address = true
      · rw [bm_init_go_cons_open hw opened s rest h1' h2]
        simp only [List.count_cons, List.count_append]
        rw [count_openB_intervalBlock hw s a]
        by_cases ha : a = s.address
        · subst ha
          rw [bm_init_go_count_openB_flagged hw rest _ s.address
            (getD_set_self opened s.address true halen)]
          simp
        · have hrec := ih (opened.set s.address true) a (by simpa using halen)
          simp [Ne.symm ha]
          omega
      · have h2' : hw.openOk s.address = false := by simpa using h2
        rw [bm_init_go_cons_fail hw opened s rest h1' h2']
        simp only [List.count_cons]
        rw [count_closeEvents_of_ne opened _ (by intro i; simp)]
        by_cases ha : a = s.address
        · simp [ha]
        · simp [Ne.symm ha]

theorem bm_init_go_count_closeB_of_fail (hw : Hardware) (ss : List ThermalSource) :
    ∀ opened : List Bool, opened.length = MAX_BOARDS →
      (∀ s ∈ ss, s.address < MAX_BOARDS) →
      (∀ a, opened.getD a false = true → hw.openOk a = true) →
      (bm_init_go hw opened ss).2.2 = false →
      ∀ a, (bm_init_go hw opened ss).1.count (HwEvent.closeB a)
        = (if opened.getD a false = true then 1 else 0)
          + (if hw.openOk a = true
             then (bm_init_go hw opened ss).1.count (HwEvent.openB a) else 0) := by
  induction ss with
  | nil => intro opened _ _ _ hf a; simp [bm_init_go_nil] at hf
  | cons s rest ih =>
    intro opened hlen haddr hinv hf a
    by_cases h1 : opened.getD s.address false = true
    · rw [bm_init_go_cons_skip hw opened s rest h1] at hf ⊢
      exact ih opened hlen (fun t ht => haddr t (List.mem_cons_of_mem s ht))
        hinv hf a
    · have h1' : opened.getD s.address false = false := by simpa using h1
      by_cases h2 : hw.openOk s.address = true
      · rw [bm_init_go_cons_open hw opened s rest h1' h2] at hf ⊢
        have hsa : s.address < opened.length := by
          rw [hlen]; exact haddr s (List.mem_cons_self s rest)
        have hinv' : ∀ b, (opened.set s.address true).getD b false = true →
            hw.openOk b = true := by
          intro b hb
          by_cases hbs : b = s.address
          · rw [hbs]; exact h2
          · rw [getD_set_ne opened s.address b true hbs] at hb
            exact hinv b hb
        have key := ih (opened.set s.address true) (by simpa using hlen)
          (fun t ht => haddr t (List.mem_cons_of_mem s ht)) hinv' hf a
        simp only [List.count_cons, List.count_append]
        rw [count_closeB_intervalBlock hw s a,
            count_openB_intervalBlock hw s a, key]
        by_cases ha : a = s.address
        · subst ha
          have hflag := getD_set_self opened s.address true hsa
          have hzero := bm_init_go_count_openB_flagged hw rest
            (opened.set s.address true) s.address hflag
          simp only [hflag, hzero, h1', h2]
          simp
        · rw [getD_set_ne opened s.address a true ha]
          have hb1 : (HwEvent.closeB a == HwEvent.openB s.address) = false := by
            simp
          have hb2 : (HwEvent.openB a == HwEvent.openB s.address) = false := by
            simp [ha]
          simp [hb1, hb2, Ne.symm ha]
      · have h2' : hw.openOk s.address = false := by simpa using h2
        rw [bm_init_go_cons_fail hw opened s rest h1' h2']
        have hcnt_open : (HwEvent.openB s.address ::
            closeEvents opened).count (HwEvent.openB a)
            = if a = s.address then 1 else 0 := by
          simp only [List.count_cons]
          rw [count_closeEvents_of_ne opened (HwEvent.openB a) (by intro i; simp)]
          by_cases ha : a = s.address
          · simp [ha]
          · simp [ha, Ne.symm ha]
        have hcnt_close : (HwEvent.openB s.address ::
            closeEvents opened).count (HwEvent.closeB a)
            = if opened.getD a false = true then 1 else 0 := by
          simp only [List.count_cons]
          rw [count_closeB_closeEvents opened a]
          by_cases hga : opened.getD a false = true
          · have hlt : a < MAX_BOARDS := hlen ▸ lt_length_of_getD opened a hga
            rw [hga]
            simp [hlt]
          · have hga' : opened.getD a false = false := by simpa using hga
            rw [hga']
            simp
        rw [hcnt_open, hcnt_close]
        by_cases ha : a = s.address
        · subst ha
          simp [h1', h2']
        · simp only [ha, if_false]
          split_ifs <;> omega

/-- Whether an event is a set-update-interval call to the given address. -/
def isSetIntervalAt (a : Nat) : HwEvent → Bool
  | HwEvent.setUpdateInterval b _ => a == b
  | _ => false

theorem countP_isSetIntervalAt_setIntervalEvents (hw : Hardware)
    (a b : Nat) (i : Int) :
    (setIntervalEvents hw b i).countP (isSetIntervalAt a)
      = if a = b then 1 else 0 := by
  unfold setIntervalEvents
  by_cases hok : hw.setIntervalOk b = true
  · rw [if_pos hok]
    by_cases hab : a = b <;> simp [List.countP_cons, isSetIntervalAt, hab]
  · rw [if_neg hok]
    by_cases hab : a = b <;> simp [List.countP_cons, isSetIntervalAt, hab]

theorem countP_isSetIntervalAt_block (hw : Hardware) (a : Nat)
    (s : ThermalSource) :
    ((if s.update_interval > 0 ∧ s.update_interval ≠ DEFAULT_UPDATE_INTERVAL
      then setIntervalEvents hw s.address s.update_interval
      else []) : List HwEvent).countP (isSetIntervalAt a)
      = if a = s.address ∧ s.update_interval > 0 ∧
           s.update_interval ≠ DEFAULT_UPDATE_INTERVAL then 1 else 0 := by
  split
  · rename_i hcond
    rw [countP_isSetIntervalAt_setIntervalEvents hw a s.address s.update_interval]
    by_cases hab : a = s.address
    · simp [hab, hcond]
    · simp [hab]
  · rename_i hcond
    simp [List.countP_nil, hcond]

theorem countP_isSetIntervalAt_closeEvents (opened : List Bool) (a : Nat) :
    (closeEvents opened).countP (isSetIntervalAt a) = 0 := by
  rw [List.countP_eq_zero]
  intro e he
  obtain ⟨i, hi⟩ := mem_closeEvents opened e he
  subst hi
  simp [isSetIntervalAt]

theorem bm_init_go_countP_interval_flagged (hw : Hardware)
    (ss : List ThermalSource) :
    ∀ (opened : List Bool) (a : Nat), opened.getD a false = true →
      (bm_init_go hw opened ss).1.countP (isSetIntervalAt a) = 0 := by
  induction ss with
  | nil => intro opened a _; rfl
  | cons s rest ih =>
    intro opened a hflag
    by_cases h1 : opened.getD s.address false = true
    · rw [bm_init_go_cons_skip hw opened s rest h1]
      exact ih opened a hflag
    · have h1' : opened.getD s.address false = false := by simpa using h1
      have hna : a ≠ s.address := by
        intro h; rw [h] at hflag; rw [hflag] at h1'; cases h1'
      by_cases h2 : hw.openOk s.address = true
      · rw [bm_init_go_cons_open hw opened s rest h1' h2]
        simp only [List.countP_cons, List.countP_append]
        rw [countP_isSetIntervalAt_block hw a s]
        have hflag' : (opened.set s.address true).getD a false = true := by
          rw [getD_set_ne opened s.address a true hna]
          exact hflag
        rw [ih _ a hflag']
        simp [isSetIntervalAt, hna]
      · have h2' : hw.openOk s.address = false := by simpa using h2
        rw [bm_init_go_cons_fail hw opened s rest h1' h2']
        simp only [List.countP_cons]
        rw [countP_isSetIntervalAt_closeEvents opened a]
        simp [isSetIntervalAt]

theorem bm_init_go_interval_decomp (hw : Hardware)
    (pre : List ThermalSource) (s : ThermalSource)
    (post : List ThermalSource) :
    ∀ opened : List Bool,
      opened.getD s.address false = false →
      s.address < opened.length →
      (∀ t ∈ pre, t.address ≠ s.address) →
      (∀ t ∈ pre, hw.openOk t.address = true) →
      hw.openOk s.address = true →
      ∃ l r : List HwEvent,
        (bm_init_go hw opened (pre ++ s :: post)).1
          = l ++ HwEvent.openB s.address ::
              ((if s.update_interval > 0 ∧
                  s.update_interval ≠ DEFAULT_UPDATE_INTERVAL
                then setIntervalEvents hw s.address s.update_interval
                else []) ++ r) ∧
        l.countP (isSetIntervalAt s.address) = 0 ∧
        r.countP (isSetIntervalAt s.address) = 0 := by
  induction pre with
  | nil =>
    intro opened hflag hlt _ _ hsok
    rw [List.nil_append, bm_init_go_cons_open hw opened s post hflag hsok]
    refine ⟨[], (bm_init_go hw (opened.set s.address true) post).1, rfl, rfl, ?_⟩
    exact bm_init_go_countP_interval_flagged hw post _ s.address
      (getD_set_self opened s.address true hlt)
  | cons t pre ih =>
    intro opened hflag hlt hne hok hsok
    have htne : t.address ≠ s.address := hne t (List.mem_cons_self t pre)
    by_cases h1 : opened.getD t.address false = true
    · rw [List.cons_append, bm_init_go_cons_skip hw opened t _ h1]
      exact ih opened hflag hlt (fun u hu => hne u (List.mem_cons_of_mem t hu))
        (fun u hu => hok u (List.mem_cons_of_mem t hu)) hsok
    · have h1' : opened.getD t.address false = false := by simpa using h1
      have h2 : hw.openOk t.address = true := hok t (List.mem_cons_self t pre)
      rw [List.cons_append, bm_init_go_cons_open hw opened t _ h1' h2]
      have hflag' : (opened.set t.address true).getD s.address false = false := by
        rw [getD_set_ne opened t.address s.address true (Ne.symm htne)]
        exact hflag
      obtain ⟨l, r, hdecomp, hl, hr⟩ := ih (opened.set t.address true) hflag'
        (by simpa using hlt)
        (fun u hu => hne u (List.mem_cons_of_mem t hu))
        (fun u hu => hok u (List.mem_cons_of_mem t hu)) hsok
      refine ⟨HwEvent.openB t.address ::
        ((if t.update_interval > 0 ∧ t.update_interval ≠ DEFAULT_UPDATE_INTERVAL
          then setIntervalEvents hw t.address t.update_interval
          else []) ++ l), r, ?_, ?_, hr⟩
      · rw [hdecomp]
        simp
      · simp only [List.countP_cons, List.countP_append]
        rw [countP_isSetIntervalAt_block hw s.address t, hl]
        simp [isSetIntervalAt, Ne.symm htne]

theorem getD_replicate_false (n a : Nat) :
    (List.replicate n false).getD a false = false := by
  rw [List.getD_eq_getElem?_getD, List.getElem?_replicate]
  split <;> rfl

theorem bm_init_go_count_openB_not_mem (hw : Hardware)
    (ss : List ThermalSource) :
    ∀ (opened : List Bool) (a : Nat), a ∉ ss.map ThermalSource.address →
      (bm_init_go hw opened ss).1.count (HwEvent.openB a) = 0 := by
  induction ss with
  | nil => intro opened a _; rfl
  | cons s rest ih =>
    intro opened a hmem
    have hna : a ≠ s.address := by
      intro h; exact hmem (by simp [h])
    have hrest : a ∉ rest.map ThermalSource.address := by
      intro h; exact hmem (by simp [h])
    by_cases h1 : opened.getD s.address false = true
    · rw [bm_init_go_cons_skip hw opened s rest h1]
      exact ih opened a hrest
    · have h1' : opened.getD s.address false = false := by simpa using h1
      by_cases h2 : hw.openOk s.address = true
      · rw [bm_init_go_cons_open hw opened s rest h1' h2]
        simp only [List.count_cons, List.count_append]
        rw [count_openB_intervalBlock hw s a, ih _ a hrest]
        simp [hna]
        omega
      · have h2' : hw.openOk s.address = false := by simpa using h2
        rw [bm_init_go_cons_fail hw opened s rest h1' h2']
        simp only [List.count_cons]
        rw [count_closeEvents_of_ne opened _ (by intro i; simp)]
        simp [hna]
        omega

/-- C2: board_manager_init issues exactly one hardware open call per
distinct board address referenced by the source list; if any open fails, it
closes every board already opened in this call exactly once and fails the
whole operation, leaving no board open (all-or-nothing). -/
theorem board_manager_init_all_or_nothing (hw : Hardware)
    (sources : List ThermalSource)
    (haddr : ∀ s ∈ sources, s.address < MAX_BOARDS) :
    ((∀ s ∈ sources, hw.openOk s.address = true) →
      (board_manager_init hw sources).2.2 = true ∧
      ∀ a, (board_manager_init hw sources).1.count (HwEvent.openB a)
        = if a ∈ sources.map ThermalSource.address then 1 else 0) ∧
    ((board_manager_init hw sources).2.2 = false →
      (board_manager_init hw sources).2.1.opened
        = List.replicate MAX_BOARDS false ∧
      ∀ a, ((board_manager_init hw sources).1.count (HwEvent.closeB a)
        = (if hw.openOk a = true
           then (board_manager_init hw sources).1.count (HwEvent.openB a)
           else 0) ∧
        (board_manager_init hw sources).1.count (HwEvent.openB a) ≤ 1)) := by
  have hstart : ∀ a : Nat,
      (List.replicate MAX_BOARDS false).getD a false = false :=
    fun a => getD_replicate_false MAX_BOARDS a
  have hlen : (List.replicate MAX_BOARDS false).length = MAX_BOARDS := by
    simp
  constructor
  · intro hall
    have hok := bm_init_go_ok_of_all hw sources
      (List.replicate MAX_BOARDS false) hall
    constructor
    · simp only [board_manager_init]
      exact hok
    · intro a
      have := bm_init_go_count_openB_of_ok hw sources
        (List.replicate MAX_BOARDS false) hlen haddr hok a
      rw [hstart a] at this
      simp only [board_manager_init]
      rw [this]
      simp
  · intro hfail
    have hfail' : (bm_init_go hw (List.replicate MAX_BOARDS false)
        sources).2.2 = false := hfail
    constructor
    · simp only [board_manager_init]
      exact bm_init_go_flags_of_fail hw sources _ hfail'
    · intro a
      have hinv : ∀ b, (List.replicate MAX_BOARDS false).getD b false = true →
          hw.openOk b = true := by
        intro b hb
        rw [hstart b] at hb
        cases hb
      have hclose := bm_init_go_count_closeB_of_fail hw sources
        (List.replicate MAX_BOARDS false) hlen haddr hinv hfail' a
      rw [hstart a] at hclose
      constructor
      · simp only [board_manager_init]
        rw [hclose]
        simp
      · simp only [board_manager_init]
        by_cases halt : a < MAX_BOARDS
        · exact bm_init_go_count_openB_le_one hw sources _ a (by simpa using halt)
        · have : a ∉ sources.map ThermalSource.address := by
            intro hmem
            simp only [List.mem_map] at hmem
            obtain ⟨t, ht, hta⟩ := hmem
            exact halt (hta ▸ haddr t ht)
          rw [bm_init_go_count_openB_not_mem hw sources _ a this]
          omega

/-- Example source with default calibration and interval on the given
address and channel. -/
def srcAt (a c : Nat) : ThermalSource :=
  ⟨"S", a, c, "K",
   ⟨DEFAULT_CALIBRATION_SLOPE, DEFAULT_CALIBRATION_OFFSET⟩, 1⟩

/-- Closed instance for board_manager_init_all_or_nothing: three sources on
addresses 0, 0 and 1 produce exactly two open calls. -/
theorem board_manager_init_all_or_nothing_witness :
    (board_manager_init hwAllOk [srcAt 0 0, srcAt 0 1, srcAt 1 0]).2.2 = true ∧
    (board_manager_init hwAllOk
        [srcAt 0 0, srcAt 0 1, srcAt 1 0]).1.count (HwEvent.openB 0) = 1 ∧
    (board_manager_init hwAllOk
        [srcAt 0 0, srcAt 0 1, srcAt 1 0]).1.count (HwEvent.openB 1) = 1 ∧
    (board_manager_init hwAllOk
        [srcAt 0 0, srcAt 0 1, srcAt 1 0]).1.count (HwEvent.openB 2) = 0 := by
  have h := board_manager_init_all_or_nothing hwAllOk
    [srcAt 0 0, srcAt 0 1, srcAt 1 0]
    (by intro s hs; fin_cases hs <;> decide)
  have h1 := h.1 (by intro s hs; rfl)
  refine ⟨h1.1, ?_, ?_, ?_⟩
  · rw [h1.2 0]; rfl
  · rw [h1.2 1]; rfl
  · rw [h1.2 2]; rfl

/-- Source A on (0,0) with the default interval. -/
def srcIntervalA : ThermalSource :=
  ⟨"A", 0, 0, "K",
   ⟨DEFAULT_CALIBRATION_SLOPE, DEFAULT_CALIBRATION_OFFSET⟩, 1⟩

/-- Source B on (0,1) with non-default interval 5. -/
def srcIntervalB : ThermalSource :=
  ⟨"B", 0, 1, "K",
   ⟨DEFAULT_CALIBRATION_SLOPE, DEFAULT_CALIBRATION_OFFSET⟩, 5⟩

/-- C7 counterexample: source B specifies the non-default interval 5 and its
board opens successfully, yet board_manager_init performs no
set-update-interval call at all, because board 0 was opened by source A
(default interval) and B is skipped. -/
theorem init_interval_counterexample :
    srcIntervalB.update_interval = 5 ∧
    (5 : Int) ≠ DEFAULT_UPDATE_INTERVAL ∧
    (board_manager_init hwAllOk [srcIntervalA, srcIntervalB]).2.2 = true ∧
    (board_manager_init hwAllOk [srcIntervalA, srcIntervalB]).1
      = [HwEvent.openB 0] ∧
    (board_manager_init hwAllOk
        [srcIntervalA, srcIntervalB]).1.countP (isSetIntervalAt 0) = 0 := by
  refine ⟨rfl, by decide, rfl, rfl, rfl⟩

/-- C7 amended: during board_manager_init an update interval is applied only
by the source that triggers its board's open (the first source in registry
order referencing that address): when that source's interval is positive and
non-default, exactly one set-interval call happens, immediately after the
successful open; a failure of that call only adds a warning and does not
make init fail; non-default intervals of later sources on an already-opened
board are ignored. -/
theorem init_interval_first_source_only (hw : Hardware)
    (pre : List ThermalSource) (s : ThermalSource) (post : List ThermalSource)
    (haddr : ∀ t ∈ pre ++ s :: post, t.address < MAX_BOARDS)
    (hfirst : ∀ t ∈ pre, t.address ≠ s.address)
    (hpreok : ∀ t ∈ pre, hw.openOk t.address = true)
    (hsok : hw.openOk s.address = true) :
    (∃ l r, (board_manager_init hw (pre ++ s :: post)).1
        = l ++ HwEvent.openB s.address ::
            ((if s.update_interval > 0 ∧
                s.update_interval ≠ DEFAULT_UPDATE_INTERVAL
              then setIntervalEvents hw s.address s.update_interval
              else []) ++ r)) ∧
    (board_manager_init hw (pre ++ s :: post)).1.countP
        (isSetIntervalAt s.address)
      = (if s.update_interval > 0 ∧ s.update_interval ≠ DEFAULT_UPDATE_INTERVAL
         then 1 else 0) ∧
    ((s.update_interval > 0 ∧ s.update_interval ≠ DEFAULT_UPDATE_INTERVAL) →
      hw.setIntervalOk s.address = false →
      HwEvent.warnSetInterval s.address ∈
        (board_manager_init hw (pre ++ s :: post)).1) ∧
    ((∀ t ∈ pre ++ s :: post, hw.openOk t.address = true) →
      (board_manager_init hw (pre ++ s :: post)).2.2 = true) := by
  have hslt : s.address < (List.replicate MAX_BOARDS false).length := by
    simp only [List.length_replicate]
    exact haddr s (by simp)
  obtain ⟨l, r, hdecomp, hl, hr⟩ := bm_init_go_interval_decomp hw pre s post
    (List.replicate MAX_BOARDS false)
    (getD_replicate_false MAX_BOARDS s.address) hslt hfirst hpreok hsok
  have htrace : (board_manager_init hw (pre ++ s :: post)).1
      = (bm_init_go hw (List.replicate MAX_BOARDS false) (pre ++ s :: post)).1 :=
    rfl
  refine ⟨⟨l, r, htrace.trans hdecomp⟩, ?_, ?_, ?_⟩
  · rw [htrace, hdecomp]
    simp only [List.countP_append, List.countP_cons, hl, hr]
    rw [countP_isSetIntervalAt_block hw s.address s]
    simp [isSetIntervalAt]
  · intro hcond hfailset
    rw [htrace, hdecomp]
    simp only [List.mem_append, List.mem_cons]
    rw [if_pos hcond]
    unfold setIntervalEvents
    rw [if_neg (by rw [hfailset]; exact Bool.false_ne_true)]
    simp
  · intro hall
    exact bm_init_go_ok_of_all hw (pre ++ s :: post)
      (List.replicate MAX_BOARDS false) hall

/-- Hardware oracle on which the set-update-interval call fails and every
other call succeeds. -/
def hwIntervalFail : Hardware :=
  { hwAllOk with setIntervalOk := fun _ => false }

/-- Closed instance for init_interval_first_source_only: the interval write
happens once for the opening source, its failure only warns, and init still
succeeds. -/
theorem init_interval_first_source_only_witness :
    (board_manager_init hwIntervalFail ([] ++ srcIntervalB :: [])).1.countP
        (isSetIntervalAt 0) = 1 ∧
    HwEvent.warnSetInterval 0 ∈
      (board_manager_init hwIntervalFail ([] ++ srcIntervalB :: [])).1 ∧
    (board_manager_init hwIntervalFail ([] ++ srcIntervalB :: [])).2.2
      = true := by
  have h := init_interval_first_source_only hwIntervalFail [] srcIntervalB []
    (by intro t ht; fin_cases ht <;> decide)
    (by intro t ht; cases ht)
    (by intro t ht; cases ht) rfl
  refine ⟨h.2.1.trans (by decide), ?_, ?_⟩
  · exact h.2.2.1 (by decide) rfl
  · exact h.2.2.2 (by intro t ht; rfl)

/-- Whether an event is a calibration write to the given (address, channel). -/
def isCalWriteAt (a c : Nat) : HwEvent → Bool
  | HwEvent.setCalibrationCoeffs b d _ _ => a == b && c == d
  | _ => false

/-- Whether an event is a thermocouple-type write. -/
def isTcWrite : HwEvent → Bool
  | HwEvent.setTcType _ _ _ => true
  | _ => false

/-- Whether an event is one of the warning events. -/
def isWarn : HwEvent → Bool
  | HwEvent.warnSetInterval _ => true
  | HwEvent.warnSetCal _ _ => true
  | HwEvent.warnSetTc _ _ => true
  | _ => false

theorem countP_isCalWriteAt_configure_one (hw : Hardware) (s : ThermalSource)
    (a c : Nat) :
    (configure_one hw s).countP (isCalWriteAt a c)
      = if a = s.address ∧ c = s.channel ∧ calDiffers s then 1 else 0 := by
  unfold configure_one
  by_cases hd : calDiffers s
  · rw [if_pos hd]
    by_cases h2 : hw.setCalOk s.address s.channel = true <;>
      by_cases h3 : hw.setTcOk s.address s.channel = true <;>
        by_cases ha : a = s.address <;> by_cases hc : c = s.channel <;>
          simp [h2, h3, ha, hc, hd, List.countP_cons, List.countP_append,
            isCalWriteAt]
  · rw [if_neg hd]
    by_cases h3 : hw.setTcOk s.address s.channel = true <;>
      simp [h3, hd, List.countP_cons, isCalWriteAt]

theorem countP_isTcWrite_configure_one (hw : Hardware) (s : ThermalSource) :
    (configure_one hw s).countP isTcWrite = 1 := by
  unfold configure_one
  by_cases hd : calDiffers s <;>
    by_cases h2 : hw.setCalOk s.address s.channel = true <;>
      by_cases h3 : hw.setTcOk s.address s.channel = true <;>
        simp [hd, h2, h3, List.countP_cons, List.countP_append, isTcWrite]

theorem mem_setTcType_configure_one (hw : Hardware) (s : ThermalSource) :
    HwEvent.setTcType s.address s.channel s.tc_type ∈ configure_one hw s := by
  unfold configure_one
  exact List.mem_append_right _ (List.mem_cons_self _ _)

theorem filter_not_warn_configure_one (hw : Hardware) (s : ThermalSource) :
    (configure_one hw s).filter (fun e => !isWarn e)
      = (if calDiffers s then
          [HwEvent.setCalibrationCoeffs s.address s.channel
            s.cal_coeffs.slope s.cal_coeffs.offset]
         else []) ++
        [HwEvent.setTcType s.address s.channel s.tc_type] := by
  unfold configure_one
  by_cases hd : calDiffers s <;>
    by_cases h2 : hw.setCalOk s.address s.channel = true <;>
      by_cases h3 : hw.setTcOk s.address s.channel = true <;>
        simp [hd, h2, h3, isWarn]

theorem countP_calwrite_config_zero (hw : Hardware)
    (srcs : List ThermalSource) (a c : Nat)
    (h : ∀ t ∈ srcs, ¬(a = t.address ∧ c = t.channel)) :
    ((srcs.map (configure_one hw)).flatten).countP (isCalWriteAt a c) = 0 := by
  induction srcs with
  | nil => rfl
  | cons t rest ih =>
    simp only [List.map_cons, List.flatten_cons, List.countP_append]
    rw [countP_isCalWriteAt_configure_one hw t a c,
        ih fun u hu => h u (List.mem_cons_of_mem t hu)]
    have := h t (List.mem_cons_self t rest)
    simp only [Nat.add_zero]
    rw [if_neg (by tauto)]

theorem countP_calwrite_config (hw : Hardware) (srcs : List ThermalSource)
    (s : ThermalSource) (hs : s ∈ srcs)
    (hnd : (srcs.map fun t => (t.address, t.channel)).Nodup) :
    ((srcs.map (configure_one hw)).flatten).countP
        (isCalWriteAt s.address s.channel)
      = if calDiffers s then 1 else 0 := by
  induction srcs with
  | nil => cases hs
  | cons t rest ih =>
    simp only [List.map_cons, List.nodup_cons] at hnd
    simp only [List.map_cons, List.flatten_cons, List.countP_append]
    rw [countP_isCalWriteAt_configure_one hw t s.address s.channel]
    rcases List.mem_cons.mp hs with heq | hmem
    · subst heq
      rw [countP_calwrite_config_zero hw rest s.address s.channel ?_]
      · simp
      · intro u hu ⟨hua, huc⟩
        exact hnd.1 (by
          rw [List.mem_map]
          exact ⟨u, hu, by rw [hua, huc]⟩)
    · rw [ih hmem hnd.2]
      have hne : ¬(s.address = t.address ∧ s.channel = t.channel) := by
        intro ⟨hua, huc⟩
        exact hnd.1 (by
          rw [List.mem_map]
          exact ⟨s, hmem, by rw [hua, huc]⟩)
      rw [if_neg (by tauto)]
      omega

/-- C6: board_manager_configure performs a hardware calibration write for a
source iff that source's calibration pair differs from the compiled-in
defaults (exactly one write per differing (address, channel) when the
(address, channel) pairs are distinct), always writes the thermocouple type
for every source, and a per-source hardware failure only produces a warning
and does not change the hardware calls made for subsequent sources. -/
theorem configure_calibration_and_tc (hw : Hardware) (mgr : BoardManager)
    (hnd : (mgr.sources.map fun t => (t.address, t.channel)).Nodup) :
    (∀ s ∈ mgr.sources,
      (board_manager_configure hw mgr).countP (isCalWriteAt s.address s.channel)
        = if calDiffers s then 1 else 0) ∧
    (board_manager_configure hw mgr).countP isTcWrite = mgr.sources.length ∧
    (∀ s ∈ mgr.sources,
      HwEvent.setTcType s.address s.channel s.tc_type
        ∈ board_manager_configure hw mgr) ∧
    (∀ hw' : Hardware,
      (board_manager_configure hw mgr).filter (fun e => !isWarn e)
        = (board_manager_configure hw' mgr).filter (fun e => !isWarn e)) := by
  refine ⟨?_, ?_, ?_, ?_⟩
  · intro s hs
    exact countP_calwrite_config hw mgr.sources s hs hnd
  · unfold board_manager_configure
    induction mgr.sources with
    | nil => rfl
    | cons t rest ih =>
      simp only [List.map_cons, List.flatten_cons, List.countP_append,
        List.length_cons]
      rw [countP_isTcWrite_configure_one hw t, ih]
      omega
  · intro s hs
    unfold board_manager_configure
    rw [List.mem_flatten]
    exact ⟨configure_one hw s, List.mem_map_of_mem (configure_one hw) hs,
      mem_setTcType_configure_one hw s⟩
  · intro hw'
    unfold board_manager_configure
    induction mgr.sources with
    | nil => rfl
    | cons t rest ih =>
      simp only [List.map_cons, List.flatten_cons, List.filter_append]
      rw [filter_not_warn_configure_one hw t, filter_not_warn_configure_one hw' t,
        ih]

/-- Source on (0,0) with a calibration pair differing from the defaults. -/
def srcCalDiff : ThermalSource := ⟨"D", 0, 0, "K", ⟨1, 0⟩, 1⟩

/-- Manager state holding srcCalDiff and the default-calibration srcAt 0 1. -/
def mgrCalExample : BoardManager :=
  ⟨List.replicate MAX_BOARDS false, [srcCalDiff, srcAt 0 1]⟩

/-- Hardware oracle on which the set-calibration call fails and every other
call succeeds. -/
def hwCalFail : Hardware :=
  { hwAllOk with setCalOk := fun _ _ => false }

/-- Closed instance for configure_calibration_and_tc: the differing pair is
written exactly once, the default pair is not written, both thermocouple
types are written, and a failing calibration write does not change the
non-warning calls. -/
theorem configure_calibration_and_tc_witness :
    (board_manager_configure hwCalFail mgrCalExample).countP (isCalWriteAt 0 0)
      = 1 ∧
    (board_manager_configure hwCalFail mgrCalExample).countP (isCalWriteAt 0 1)
      = 0 ∧
    (board_manager_configure hwCalFail mgrCalExample).countP isTcWrite = 2 ∧
    (board_manager_configure hwCalFail mgrCalExample).filter (fun e => !isWarn e)
      = (board_manager_configure hwAllOk mgrCalExample).filter
          (fun e => !isWarn e) := by
  have h := configure_calibration_and_tc hwCalFail mgrCalExample (by decide)
  refine ⟨?_, ?_, h.2.1.trans (by rfl), h.2.2.2 hwAllOk⟩
  · have h1 := h.1 srcCalDiff (by decide)
    exact h1.trans (by decide)
  · have h2 := h.1 (srcAt 0 1) (by decide)
    exact h2.trans (by decide)

/-- Whether an event is a board open or close. -/
def isBoardOp : HwEvent → Bool
  | HwEvent.openB _ => true
  | HwEvent.closeB _ => true
  | _ => false

theorem counts_zero_of_no_boardOp (tr : List HwEvent)
    (h : ∀ e ∈ tr, isBoardOp e = false) (a : Nat) :
    tr.count (HwEvent.openB a) = 0 ∧ tr.count (HwEvent.closeB a) = 0 := by
  constructor <;> rw [List.count_eq_zero] <;> intro hmem <;>
    have hc := h _ hmem <;> simp [isBoardOp] at hc

theorem no_boardOp_flatten {α : Type} (f : α → List HwEvent) (l : List α)
    (h : ∀ x ∈ l, ∀ e ∈ f x, isBoardOp e = false) :
    ∀ e ∈ (l.map f).flatten, isBoardOp e = false := by
  intro e he
  rw [List.mem_flatten] at he
  obtain ⟨sub, hsub, hesub⟩ := he
  rw [List.mem_map] at hsub
  obtain ⟨x, hx, hfx⟩ := hsub
  exact h x hx e (hfx ▸ hesub)

theorem no_boardOp_configure_one (hw : Hardware) (s : ThermalSource) :
    ∀ e ∈ configure_one hw s, isBoardOp e = false := by
  intro e he
  unfold configure_one at he
  rcases List.mem_append.mp he with h | h
  · split at h
    · rcases List.mem_cons.mp h with h' | h'
      · subst h'; rfl
      · split at h' <;> simp at h'
        subst h'; rfl
    · cases h
  · rcases List.mem_cons.mp h with h' | h'
    · subst h'; rfl
    · split at h' <;> simp at h'
      subst h'; rfl

theorem no_boardOp_configure (hw : Hardware) (mgr : BoardManager) :
    ∀ e ∈ board_manager_configure hw mgr, isBoardOp e = false :=
  no_boardOp_flatten _ _ fun s _ => no_boardOp_configure_one hw s

theorem no_boardOp_channel_reading_collect (hw : Hardware)
    (address channel : Nat) (gt ga gc : Bool) :
    ∀ e ∈ (channel_reading_collect hw address channel gt ga gc).1,
      isBoardOp e = false := by
  intro e he
  unfold channel_reading_collect at he
  simp only [List.mem_append] at he
  rcases he with (h | h) | h <;> split at h <;> simp at h <;>
    (subst h; rfl)

theorem no_boardOp_collect_dynamic (hw : Hardware)
    (sources : List ThermalSource) (gt ga gc : Bool) :
    ∀ e ∈ (collect_dynamic hw sources gt ga gc).1, isBoardOp e = false := by
  unfold collect_dynamic
  simp only [List.map_map]
  exact no_boardOp_flatten _ _ fun s _ =>
    no_boardOp_channel_reading_collect hw s.address s.channel gt ga gc

theorem no_boardOp_stream_loop (hw : Hardware) (sources : List ThermalSource)
    (gt ga gc : Bool) (running : Nat → Bool) :
    ∀ (fuel k : Nat),
      ∀ e ∈ (stream_loop hw sources gt ga gc running fuel k).1,
        isBoardOp e = false := by
  intro fuel
  induction fuel with
  | zero => intro k e he; cases he
  | succ m ih =>
    intro k e he
    unfold stream_loop at he
    split at he
    · simp only [List.mem_append] at he
      rcases he with h | h
      · exact no_boardOp_collect_dynamic hw sources gt ga gc e h
      · exact ih (k + 1) e h
    · cases he

theorem no_boardOp_get_thermal_data (hw : Hardware)
    (sources : List ThermalSource) :
    ∀ e ∈ (get_thermal_data hw sources).1, isBoardOp e = false := by
  unfold get_thermal_data
  refine no_boardOp_flatten _ _ fun s _ e he => ?_
  rcases List.mem_cons.mp he with h | h
  · subst h; rfl
  · rcases List.mem_cons.mp h with h' | h'
    · subst h'; rfl
    · rcases List.mem_cons.mp h' with h2 | h2
      · subst h2; rfl
      · cases h2

theorem no_boardOp_bridge_line (hw : Hardware)
    (parse : String → Option (List (String × JVal)))
    (sources : List ThermalSource) (ts line : String) :
    ∀ e ∈ (bridge_process_line hw parse sources ts line).1,
      isBoardOp e = false := by
  intro e he
  by_cases hs : strip_newline line = ""
  · rw [bridge_process_line, if_pos hs] at he
    cases he
  · rw [bridge_process_line, if_neg hs] at he
    rcases hp : parse (strip_newline line) with _ | fields
    · rw [hp] at he
      cases he
    · rw [hp] at he
      exact no_boardOp_get_thermal_data hw sources e he

theorem bm_init_go_flags_openOk (hw : Hardware) (ss : List ThermalSource) :
    ∀ opened : List Bool,
      (∀ b, opened.getD b false = true → hw.openOk b = true) →
      ∀ b, (bm_init_go hw opened ss).2.1.getD b false = true →
        hw.openOk b = true := by
  induction ss with
  | nil => intro opened hinv b hb; exact hinv b hb
  | cons s rest ih =>
    intro opened hinv b hb
    by_cases h1 : opened.getD s.address false = true
    · rw [bm_init_go_cons_skip hw opened s rest h1] at hb
      exact ih opened hinv b hb
    · have h1' : opened.getD s.address false = false := by simpa using h1
      by_cases h2 : hw.openOk s.address = true
      · rw [bm_init_go_cons_open hw opened s rest h1' h2] at hb
        refine ih (opened.set s.address true) ?_ b hb
        intro d hd
        by_cases hds : d = s.address
        · rw [hds]; exact h2
        · rw [getD_set_ne opened s.address d true hds] at hd
          exact hinv d hd
      · have h2' : hw.openOk s.address = false := by simpa using h2
        rw [bm_init_go_cons_fail hw opened s rest h1' h2'] at hb
        rw [getD_replicate_false MAX_BOARDS b] at hb
        cases hb

/-- After a successful init, the close phase closes exactly the distinct
referenced addresses, once each. -/
theorem count_closeB_close_of_ok (hw : Hardware) (sources : List ThermalSource)
    (haddr : ∀ s ∈ sources, s.address < MAX_BOARDS)
    (hok : (board_manager_init hw sources).2.2 = true) (a : Nat) :
    (board_manager_close (board_manager_init hw sources).2.1).1.count
        (HwEvent.closeB a)
      = if a ∈ sources.map ThermalSource.address then 1 else 0 := by
  have hflags := bm_init_go_flags_of_ok hw sources
    (List.replicate MAX_BOARDS false) (by simp) haddr hok a
  rw [getD_replicate_false MAX_BOARDS a] at hflags
  simp only [Bool.false_eq_true, false_or] at hflags
  have htr : (board_manager_close (board_manager_init hw sources).2.1).1
      = closeEvents (bm_init_go hw (List.replicate MAX_BOARDS false)
          sources).2.1 := rfl
  rw [htr, count_closeB_closeEvents]
  by_cases hmem : a ∈ sources.map ThermalSource.address
  · have hlt : a < MAX_BOARDS := by
      rw [List.mem_map] at hmem
      obtain ⟨t, ht, hta⟩ := hmem
      exact hta ▸ haddr t ht
    rw [if_pos ⟨hlt, hflags.mpr hmem⟩, if_pos hmem]
  · rw [if_neg ?_, if_neg hmem]
    rintro ⟨_, hfl⟩
    exact hmem (hflags.mp hfl)

theorem stream_loop_outs (hw : Hardware) (sources : List ThermalSource)
    (gt ga gc : Bool) (running : Nat → Bool) :
    ∀ (N fuel k : Nat), (∀ i, i < N → running (k + i) = true) →
      running (k + N) = false → N < fuel →
      (stream_loop hw sources gt ga gc running fuel k).2.length = N ∧
      ∀ out ∈ (stream_loop hw sources gt ga gc running fuel k).2,
        out.length = sources.length := by
  intro N
  induction N with
  | zero =>
    intro fuel k _ hN hfuel
    obtain ⟨m, rfl⟩ : ∃ m, fuel = m + 1 :=
      ⟨fuel - 1, by omega⟩
    rw [Nat.add_zero] at hN
    unfold stream_loop
    rw [if_neg (by rw [hN]; exact Bool.false_ne_true)]
    exact ⟨rfl, by intro out hout; cases hout⟩
  | succ N ih =>
    intro fuel k hrun hN hfuel
    obtain ⟨m, rfl⟩ : ∃ m, fuel = m + 1 := ⟨fuel - 1, by omega⟩
    have hk : running k = true := by
      have := hrun 0 (by omega)
      simpa using this
    unfold stream_loop
    rw [if_pos hk]
    have hrun' : ∀ i, i < N → running (k + 1 + i) = true := by
      intro i hi
      have := hrun (i + 1) (by omega)
      have harith : k + (i + 1) = k + 1 + i := by omega
      rw [harith] at this
      exact this
    have hN' : running (k + 1 + N) = false := by
      have harith : k + (N + 1) = k + 1 + N := by omega
      rw [harith] at hN
      exact hN
    obtain ⟨hlen, hall⟩ := ih m (k + 1) hrun' hN' (by omega)
    constructor
    · simp only [List.length_cons, hlen]
    · intro out hout
      rcases List.mem_cons.mp hout with h | h
      · subst h
        unfold collect_dynamic
        simp
      · exact hall out h

theorem stream_channels_eq_ok (hw : Hardware) (sources : List ThermalSource)
    (gt ga gc : Bool) (running : Nat → Bool) (fuel : Nat)
    (hok : (board_manager_init hw sources).2.2 = true) :
    stream_channels hw sources gt ga gc running fuel
      = ((board_manager_init hw sources).1 ++
         board_manager_configure hw (board_manager_init hw sources).2.1 ++
         (stream_loop hw sources gt ga gc running fuel 0).1 ++
         (board_manager_close (board_manager_init hw sources).2.1).1,
         (stream_loop hw sources gt ga gc running fuel 0).2, 0) := by
  unfold stream_channels
  rcases hx : board_manager_init hw sources with ⟨evs, mgr, ok⟩
  rw [hx] at hok
  simp only at hok
  subst hok
  rfl

theorem stream_channels_eq_fail (hw : Hardware) (sources : List ThermalSource)
    (gt ga gc : Bool) (running : Nat → Bool) (fuel : Nat)
    (hfail : (board_manager_init hw sources).2.2 = false) :
    stream_channels hw sources gt ga gc running fuel
      = ((board_manager_init hw sources).1, [], 1) := by
  unfold stream_channels
  rcases hx : board_manager_init hw sources with ⟨evs, mgr, ok⟩
  rw [hx] at hfail
  simp only at hfail
  subst hfail
  rfl

/-- C3: in streaming mode, a cancellation signal observed at the check
before iteration N (after N completed ticks) yields exactly N dynamic
outputs, each a complete per-source pass — no output for a partially
completed tick — and the run then closes every opened board exactly once,
after the loop; the flag is consulted once per loop iteration (iteration k
runs iff the flag still read true at its top). -/
theorem stream_cancellation (hw : Hardware) (sources : List ThermalSource)
    (gt ga gc : Bool) (running : Nat → Bool) (N fuel : Nat)
    (haddr : ∀ s ∈ sources, s.address < MAX_BOARDS)
    (hrun : ∀ i, i < N → running i = true)
    (hN : running N = false)
    (hfuel : N < fuel)
    (hinit : (board_manager_init hw sources).2.2 = true) :
    (stream_channels hw sources gt ga gc running fuel).2.1.length = N ∧
    (∀ out ∈ (stream_channels hw sources gt ga gc running fuel).2.1,
      out.length = sources.length) ∧
    (stream_channels hw sources gt ga gc running fuel).2.2 = 0 ∧
    (∃ pre,
      (stream_channels hw sources gt ga gc running fuel).1
        = pre ++ (board_manager_close (board_manager_init hw sources).2.1).1 ∧
      (∀ a, pre.count (HwEvent.closeB a) = 0) ∧
      (∀ a, (board_manager_close (board_manager_init hw sources).2.1).1.count
          (HwEvent.closeB a)
        = if a ∈ sources.map ThermalSource.address then 1 else 0)) := by
  have heq := stream_channels_eq_ok hw sources gt ga gc running fuel hinit
  have houts := stream_loop_outs hw sources gt ga gc running N fuel 0
    (by intro i hi; simpa using hrun i hi) (by simpa using hN) hfuel
  refine ⟨?_, ?_, ?_, ?_⟩
  · rw [heq]; exact houts.1
  · rw [heq]; exact houts.2
  · rw [heq]
  · refine ⟨(board_manager_init hw sources).1 ++
      board_manager_configure hw (board_manager_init hw sources).2.1 ++
      (stream_loop hw sources gt ga gc running fuel 0).1, ?_, ?_, ?_⟩
    · rw [heq]
    · intro a
      simp only [List.count_append]
      have h0 : (board_manager_init hw sources).1.count (HwEvent.closeB a) = 0 :=
        bm_init_go_count_closeB_of_ok hw sources _ hinit a
      have hcfg := (counts_zero_of_no_boardOp _
        (no_boardOp_configure hw (board_manager_init hw sources).2.1) a).2
      have hloop := (counts_zero_of_no_boardOp _
        (no_boardOp_stream_loop hw sources gt ga gc running fuel 0) a).2
      omega
    · exact count_closeB_close_of_ok hw sources haddr hinit

/-- Closed instance for stream_cancellation: one source, cancellation after
two ticks yields exactly two complete outputs and one close of board 0. -/
theorem stream_cancellation_witness :
    (stream_channels hwAllOk [srcT1] true false false
        (fun i => i < 2) 5).2.1.length = 2 ∧
    (∀ out ∈ (stream_channels hwAllOk [srcT1] true false false
        (fun i => i < 2) 5).2.1, out.length = 1) ∧
    (stream_channels hwAllOk [srcT1] true false false
        (fun i => i < 2) 5).2.2 = 0 := by
  have h := stream_cancellation hwAllOk [srcT1] true false false
    (fun i => i < 2) 2 5
    (by intro s hs; fin_cases hs <;> decide)
    (by intro i hi; simp; omega)
    (by simp) (by omega) rfl
  exact ⟨h.1, h.2.1, h.2.2.1⟩

theorem cmd_get_single_eq_ok (hw : Hardware) (sources : List ThermalSource)
    (gt ga gc : Bool)
    (hok : (board_manager_init hw sources).2.2 = true) :
    cmd_get_single hw sources gt ga gc
      = ((board_manager_init hw sources).1 ++
         board_manager_configure hw (board_manager_init hw sources).2.1 ++
         (collect_dynamic hw sources gt ga gc).1 ++
         (board_manager_close (board_manager_init hw sources).2.1).1, 0) := by
  unfold cmd_get_single collect_channels
  rcases hx : board_manager_init hw sources with ⟨evs, mgr, ok⟩
  rw [hx] at hok
  simp only at hok
  subst hok
  rfl

theorem cmd_get_single_eq_fail (hw : Hardware) (sources : List ThermalSource)
    (gt ga gc : Bool)
    (hfail : (board_manager_init hw sources).2.2 = false) :
    cmd_get_single hw sources gt ga gc
      = ((board_manager_init hw sources).1, 1) := by
  unfold cmd_get_single collect_channels
  rcases hx : board_manager_init hw sources with ⟨evs, mgr, ok⟩
  rw [hx] at hfail
  simp only at hfail
  subst hfail
  rfl

theorem cmd_fuse_run_eq_ok (hw : Hardware)
    (parse : String → Option (List (String × JVal)))
    (sources : List ThermalSource) (lines : List (String × String))
    (childExit : Nat)
    (hok : (board_manager_init hw sources).2.2 = true) :
    cmd_fuse_run hw parse sources lines childExit
      = ((board_manager_init hw sources).1 ++
         board_manager_configure hw (board_manager_init hw sources).2.1 ++
         ((lines.map fun tl =>
            bridge_process_line hw parse sources tl.1 tl.2).map Prod.fst).flatten ++
         (board_manager_close (board_manager_init hw sources).2.1).1,
         (lines.map fun tl =>
            bridge_process_line hw parse sources tl.1 tl.2).map Prod.snd,
         childExit) := by
  unfold cmd_fuse_run
  rcases hx : board_manager_init hw sources with ⟨evs, mgr, ok⟩
  rw [hx] at hok
  simp only at hok
  subst hok
  rfl

theorem cmd_fuse_run_eq_fail (hw : Hardware)
    (parse : String → Option (List (String × JVal)))
    (sources : List ThermalSource) (lines : List (String × String))
    (childExit : Nat)
    (hfail : (board_manager_init hw sources).2.2 = false) :
    cmd_fuse_run hw parse sources lines childExit
      = ((board_manager_init hw sources).1, [], 1) := by
  unfold cmd_fuse_run
  rcases hx : board_manager_init hw sources with ⟨evs, mgr, ok⟩
  rw [hx] at hfail
  simp only at hfail
  subst hfail
  rfl

theorem close_nil_of_fail (hw : Hardware) (sources : List ThermalSource)
    (hfail : (board_manager_init hw sources).2.2 = false) :
    (board_manager_close (board_manager_init hw sources).2.1).1 = [] := by
  have h : (bm_init_go hw (List.replicate MAX_BOARDS false) sources).2.1
      = List.replicate MAX_BOARDS false :=
    bm_init_go_flags_of_fail hw sources _ hfail
  show closeEvents (bm_init_go hw (List.replicate MAX_BOARDS false)
    sources).2.1 = []
  rw [h]
  rfl

theorem command_counts_ok (hw : Hardware) (sources : List ThermalSource)
    (M : List HwEvent) (hM : ∀ e ∈ M, isBoardOp e = false)
    (haddr : ∀ s ∈ sources, s.address < MAX_BOARDS)
    (hok : (board_manager_init hw sources).2.2 = true) (a : Nat) :
    (((board_manager_init hw sources).1 ++ M ++
      (board_manager_close (board_manager_init hw sources).2.1).1).count
        (HwEvent.closeB a)
      = if hw.openOk a = true
        then ((board_manager_init hw sources).1 ++ M ++
          (board_manager_close (board_manager_init hw sources).2.1).1).count
            (HwEvent.openB a)
        else 0) ∧
    ((board_manager_init hw sources).1 ++ M ++
      (board_manager_close (board_manager_init hw sources).2.1).1).count
        (HwEvent.openB a)
      = (if a ∈ sources.map ThermalSource.address then 1 else 0) ∧
    ((board_manager_init hw sources).1 ++ M ++
      (board_manager_close (board_manager_init hw sources).2.1).1).count
        (HwEvent.closeB a)
      = (if a ∈ sources.map ThermalSource.address then 1 else 0) := by
  have hopen_init : (board_manager_init hw sources).1.count (HwEvent.openB a)
      = if a ∈ sources.map ThermalSource.address then 1 else 0 := by
    have h := bm_init_go_count_openB_of_ok hw sources
      (List.replicate MAX_BOARDS false) (by simp) haddr hok a
    rw [getD_replicate_false MAX_BOARDS a] at h
    have h2 : (board_manager_init hw sources).1.count (HwEvent.openB a)
        = if false = false ∧ a ∈ sources.map ThermalSource.address
          then 1 else 0 := h
    rw [h2]
    simp
  have hclose_init : (board_manager_init hw sources).1.count (HwEvent.closeB a)
      = 0 := bm_init_go_count_closeB_of_ok hw sources _ hok a
  have hclose_close : (board_manager_close
      (board_manager_init hw sources).2.1).1.count (HwEvent.closeB a)
      = if a ∈ sources.map ThermalSource.address then 1 else 0 :=
    count_closeB_close_of_ok hw sources haddr hok a
  have hopen_close : (board_manager_close
      (board_manager_init hw sources).2.1).1.count (HwEvent.openB a) = 0 :=
    count_closeEvents_of_ne _ _ (by intro i; simp)
  have hMc := counts_zero_of_no_boardOp M hM a
  have hmem_imp : a ∈ sources.map ThermalSource.address →
      hw.openOk a = true := by
    intro hmem
    have hflags := bm_init_go_flags_of_ok hw sources
      (List.replicate MAX_BOARDS false) (by simp) haddr hok a
    rw [getD_replicate_false MAX_BOARDS a] at hflags
    simp only [Bool.false_eq_true, false_or] at hflags
    exact bm_init_go_flags_openOk hw sources (List.replicate MAX_BOARDS false)
      (by intro b hb; rw [getD_replicate_false MAX_BOARDS b] at hb; cases hb)
      a (hflags.mpr hmem)
  simp only [List.count_append, hopen_init, hclose_init, hclose_close,
    hopen_close, hMc.1, hMc.2]
  refine ⟨?_, by omega, by omega⟩
  by_cases hoa : hw.openOk a = true
  · rw [if_pos hoa]
    omega
  · rw [if_neg hoa]
    by_cases hmem : a ∈ sources.map ThermalSource.address
    · exact absurd (hmem_imp hmem) hoa
    · rw [if_neg hmem]

theorem command_counts_fail (hw : Hardware) (sources : List ThermalSource)
    (haddr : ∀ s ∈ sources, s.address < MAX_BOARDS)
    (hfail : (board_manager_init hw sources).2.2 = false) (a : Nat) :
    ((board_manager_init hw sources).1.count (HwEvent.closeB a)
      = if hw.openOk a = true
        then (board_manager_init hw sources).1.count (HwEvent.openB a)
        else 0) ∧
    (board_manager_init hw sources).1.count (HwEvent.openB a) ≤ 1 := by
  have hinv : ∀ b, (List.replicate MAX_BOARDS false).getD b false = true →
      hw.openOk b = true := by
    intro b hb
    rw [getD_replicate_false MAX_BOARDS b] at hb
    cases hb
  have hclose := bm_init_go_count_closeB_of_fail hw sources
    (List.replicate MAX_BOARDS false) (by simp) haddr hinv hfail a
  rw [getD_replicate_false MAX_BOARDS a] at hclose
  constructor
  · have hclose2 : (board_manager_init hw sources).1.count (HwEvent.closeB a)
        = (if false = true then 1 else 0)
          + (if hw.openOk a = true
             then (board_manager_init hw sources).1.count (HwEvent.openB a)
             else 0) := hclose
    rw [hclose2]
    simp
  · by_cases halt : a < MAX_BOARDS
    · exact bm_init_go_count_openB_le_one hw sources _ a (by simpa using halt)
    · have hnm : a ∉ sources.map ThermalSource.address := by
        intro hmem
        rw [List.mem_map] at hmem
        obtain ⟨t, ht, hta⟩ := hmem
        exact halt (hta ▸ haddr t ht)
      have h0 : (board_manager_init hw sources).1.count (HwEvent.openB a) = 0 :=
        bm_init_go_count_openB_not_mem hw sources _ a hnm
      rw [h0]
      omega

/-- Lifecycle property of one command run's hardware trace: every close
balances a successful open (and a failed-open address is never closed),
every address is opened at most once, and when every referenced board opens
successfully the set of opened addresses is exactly the set of distinct
referenced addresses, each opened and closed exactly once. -/
def lifecycleSpec (hw : Hardware) (sources : List ThermalSource)
    (tr : List HwEvent) : Prop :=
  (∀ a, tr.count (HwEvent.closeB a)
      = if hw.openOk a = true then tr.count (HwEvent.openB a) else 0) ∧
  (∀ a, tr.count (HwEvent.openB a) ≤ 1) ∧
  ((∀ s ∈ sources, hw.openOk s.address = true) →
    ∀ a, tr.count (HwEvent.openB a)
        = (if a ∈ sources.map ThermalSource.address then 1 else 0) ∧
      tr.count (HwEvent.closeB a)
        = (if a ∈ sources.map ThermalSource.address then 1 else 0))

theorem lifecycleSpec_of_ok (hw : Hardware) (sources : List ThermalSource)
    (M : List HwEvent) (hM : ∀ e ∈ M, isBoardOp e = false)
    (haddr : ∀ s ∈ sources, s.address < MAX_BOARDS)
    (hok : (board_manager_init hw sources).2.2 = true) :
    lifecycleSpec hw sources
      ((board_manager_init hw sources).1 ++ M ++
       (board_manager_close (board_manager_init hw sources).2.1).1) := by
  refine ⟨fun a => (command_counts_ok hw sources M hM haddr hok a).1,
    fun a => ?_,
    fun _ a => ⟨(command_counts_ok hw sources M hM haddr hok a).2.1,
      (command_counts_ok hw sources M hM haddr hok a).2.2⟩⟩
  rw [(command_counts_ok hw sources M hM haddr hok a).2.1]
  split <;> omega

theorem lifecycleSpec_of_fail (hw : Hardware) (sources : List ThermalSource)
    (haddr : ∀ s ∈ sources, s.address < MAX_BOARDS)
    (hfail : (board_manager_init hw sources).2.2 = false) :
    lifecycleSpec hw sources (board_manager_init hw sources).1 := by
  refine ⟨fun a => (command_counts_fail hw sources haddr hfail a).1,
    fun a => (command_counts_fail hw sources haddr hfail a).2,
    fun hall => ?_⟩
  have hok : (board_manager_init hw sources).2.2 = true :=
    bm_init_go_ok_of_all hw sources _ hall
  rw [hok] at hfail
  cases hfail

/-- C1: for every run of any modelled command (single-shot get, streaming
get, fuse), the hardware trace satisfies the lifecycle invariant: a close
call per successful open and none for a failed open, at most one open per
address, and — when every referenced board opens — the set of opened
addresses equals the set of distinct addresses referenced by the source
registry, each opened and closed exactly once before the command returns,
including on the early-error path where init itself fails. -/
theorem lifecycle_open_close (hw : Hardware) (sources : List ThermalSource)
    (gt ga gc : Bool) (running : Nat → Bool) (fuel : Nat)
    (parse : String → Option (List (String × JVal)))
    (lines : List (String × String)) (childExit : Nat)
    (haddr : ∀ s ∈ sources, s.address < MAX_BOARDS) :
    lifecycleSpec hw sources (cmd_get_single hw sources gt ga gc).1 ∧
    lifecycleSpec hw sources
      (stream_channels hw sources gt ga gc running fuel).1 ∧
    lifecycleSpec hw sources
      (cmd_fuse_run hw parse sources lines childExit).1 := by
  refine ⟨?_, ?_, ?_⟩
  · by_cases hok : (board_manager_init hw sources).2.2 = true
    · have htr : (cmd_get_single hw sources gt ga gc).1
          = (board_manager_init hw sources).1 ++
            (board_manager_configure hw (board_manager_init hw sources).2.1 ++
             (collect_dynamic hw sources gt ga gc).1) ++
            (board_manager_close (board_manager_init hw sources).2.1).1 := by
        rw [cmd_get_single_eq_ok hw sources gt ga gc hok]
        simp [List.append_assoc]
      rw [htr]
      refine lifecycleSpec_of_ok hw sources _ ?_ haddr hok
      intro e he
      rcases List.mem_append.mp he with h | h
      · exact no_boardOp_configure hw _ e h
      · exact no_boardOp_collect_dynamic hw sources gt ga gc e h
    · have hfail : (board_manager_init hw sources).2.2 = false := by
        simpa using hok
      have htr : (cmd_get_single hw sources gt ga gc).1
          = (board_manager_init hw sources).1 := by
        rw [cmd_get_single_eq_fail hw sources gt ga gc hfail]
      rw [htr]
      exact lifecycleSpec_of_fail hw sources haddr hfail
  · by_cases hok : (board_manager_init hw sources).2.2 = true
    · have htr : (stream_channels hw sources gt ga gc running fuel).1
          = (board_manager_init hw sources).1 ++
            (board_manager_configure hw (board_manager_init hw sources).2.1 ++
             (stream_loop hw sources gt ga gc running fuel 0).1) ++
            (board_manager_close (board_manager_init hw sources).2.1).1 := by
        rw [stream_channels_eq_ok hw sources gt ga gc running fuel hok]
        simp [List.append_assoc]
      rw [htr]
      refine lifecycleSpec_of_ok hw sources _ ?_ haddr hok
      intro e he
      rcases List.mem_append.mp he with h | h
      · exact no_boardOp_configure hw _ e h
      · exact no_boardOp_stream_loop hw sources gt ga gc running fuel 0 e h
    · have hfail : (board_manager_init hw sources).2.2 = false := by
        simpa using hok
      have htr : (stream_channels hw sources gt ga gc running fuel).1
          = (board_manager_init hw sources).1 := by
        rw [stream_channels_eq_fail hw sources gt ga gc running fuel hfail]
      rw [htr]
      exact lifecycleSpec_of_fail hw sources haddr hfail
  · by_cases hok : (board_manager_init hw sources).2.2 = true
    · have htr : (cmd_fuse_run hw parse sources lines childExit).1
          = (board_manager_init hw sources).1 ++
            (board_manager_configure hw (board_manager_init hw sources).2.1 ++
             ((lines.map fun tl =>
                bridge_process_line hw parse sources tl.1 tl.2).map
                  Prod.fst).flatten) ++
            (board_manager_close (board_manager_init hw sources).2.1).1 := by
        rw [cmd_fuse_run_eq_ok hw parse sources lines childExit hok]
        simp [List.append_assoc]
      rw [htr]
      refine lifecycleSpec_of_ok hw sources _ ?_ haddr hok
      intro e he
      rcases List.mem_append.mp he with h | h
      · exact no_boardOp_configure hw _ e h
      · rw [List.mem_flatten] at h
        obtain ⟨sub, hsub, hesub⟩ := h
        rw [List.mem_map] at hsub
        obtain ⟨pr, hpr, hprs⟩ := hsub
        rw [List.mem_map] at hpr
        obtain ⟨tl, _, htl⟩ := hpr
        subst htl
        subst hprs
        exact no_boardOp_bridge_line hw parse sources tl.1 tl.2 e hesub
    · have hfail : (board_manager_init hw sources).2.2 = false := by
        simpa using hok
      have htr : (cmd_fuse_run hw parse sources lines childExit).1
          = (board_manager_init hw sources).1 := by
        rw [cmd_fuse_run_eq_fail hw parse sources lines childExit hfail]
      rw [htr]
      exact lifecycleSpec_of_fail hw sources haddr hfail

/-- Closed instance for lifecycle_open_close: with one source on board 0,
each command opens board 0 once and closes it once. -/
theorem lifecycle_open_close_witness :
    (cmd_get_single hwAllOk [srcAt 0 0] true false false).1.count
        (HwEvent.openB 0) = 1 ∧
    (cmd_get_single hwAllOk [srcAt 0 0] true false false).1.count
        (HwEvent.closeB 0) = 1 ∧
    (stream_channels hwAllOk [srcAt 0 0] true false false
        (fun i => i < 1) 3).1.count (HwEvent.closeB 0) = 1 ∧
    (cmd_fuse_run hwAllOk (fun _ => none) [srcAt 0 0]
        [("t", "x")] 0).1.count (HwEvent.closeB 0) = 1 := by
  have h := lifecycle_open_close hwAllOk [srcAt 0 0] true false false
    (fun i => i < 1) 3 (fun _ => none) [("t", "x")] 0
    (by intro s hs; fin_cases hs <;> decide)
  have hall : ∀ s ∈ [srcAt 0 0], hwAllOk.openOk s.address = true := by
    intro s _; rfl
  refine ⟨(((h.1).2.2 hall 0).1).trans (by decide),
    (((h.1).2.2 hall 0).2).trans (by decide),
    (((h.2.1).2.2 hall 0).2).trans (by decide),
    (((h.2.2).2.2 hall 0).2).trans (by decide)⟩

end Thermo
